import Mathlib

/-! WorkNStay AI, hostel-owner module (`js/hostel-owner.js`).

A shallow embedding of the front-end script and the properties proved about it.

Conventions of the embedding.

* JavaScript strings are lists of characters (`List Char`) where the program computes
  with them character by character, and `String` where they are only compared or stored.
* The page is modelled by the elements the script reads and writes.  An element the script
  dereferences without a null check is a field; an element it guards with `if (x)` is an
  `Option`.
* `setTimeout` callbacks are defunctionalised: a pending timer is a value that records what
  the closure captured, and firing it is a function on the state.
* `showNotification` is recorded as the list of the calls made so far, oldest first.
-/

namespace HostelOwner

/-! ## Configuration (`CONFIG`) -/

/-- `CONFIG.minRoomTypes`. -/
def minRoomTypes : Nat := 1

/-- `CONFIG.maxRoomTypes`. -/
def maxRoomTypes : Nat := 10

/-! ## Notifications -/

/-- One call `showNotification(message, type)`. -/
structure Note where
  message : String
  type : String
  deriving DecidableEq, Repr

/-! ## Strings -/

/-- The no-break space U+00A0. -/
def nbsp : Char := Char.ofNat 160

/-- The code points that `String.prototype.trim` removes and that `\s` matches:
ECMAScript WhiteSpace and LineTerminator. -/
def isJsSpace (c : Char) : Bool :=
  let n := c.toNat
  n = 9 || n = 10 || n = 11 || n = 12 || n = 13 || n = 32 || n = 160 || n = 5760 ||
  (8192 ≤ n && n ≤ 8202) || n = 8232 || n = 8233 || n = 8239 || n = 8287 ||
  n = 12288 || n = 65279

/-- `String.prototype.trim`: drop the leading and the trailing white space. -/
def trim (s : List Char) : List Char :=
  ((s.dropWhile isJsSpace).reverse.dropWhile isJsSpace).reverse

/-- Lower-casing of the letters `A` to `Z`; `toLowerCase` acts so on ASCII text. -/
def asciiLower (s : List Char) : List Char :=
  s.map (fun c => if 'A' ≤ c ∧ c ≤ 'Z' then Char.ofNat (c.toNat + 32) else c)

/-- The HTML fragment serialisation of one character of a text node ("escaping a string",
not in attribute mode): `&`, U+00A0, `<` and `>` become character references. -/
def escapeChar (c : Char) : List Char :=
  if c = '&' then "&amp;".toList
  else if c = nbsp then "&nbsp;".toList
  else if c = '<' then "&lt;".toList
  else if c = '>' then "&gt;".toList
  else [c]

/-- The function `escapeHtml(text)`: `div.textContent = text; return div.innerHTML`.  Setting
`textContent` makes `text` the only text node of the fresh `div` (no node at all when `text`
is empty), and reading `innerHTML` serialises that text node character by character. -/
def escapeHtml (text : List Char) : List Char :=
  text.flatMap escapeChar

/-- The character references that the serialisation of a text node can produce: the name
that follows the ampersand, and the character it stands for. -/
def refNames : List (List Char × Char) :=
  [("amp;".toList, '&'), ("lt;".toList, '<'), ("gt;".toList, '>'), ("nbsp;".toList, nbsp)]

/-- The character reference that starts right after an ampersand, if any. -/
def matchRef (r : List Char) : Option (List Char × Char) :=
  refNames.find? (fun p => p.1.isPrefixOf r)

/-- Decoder of character references, with the number of characters still to skip because
they belong to the reference just decoded. -/
def decodeGo : Nat → List Char → List Char
  | _, [] => []
  | k + 1, _ :: r => decodeGo k r
  | 0, c :: r =>
    if c = '&' then
      match matchRef r with
      | some (name, ch) => ch :: decodeGo name.length r
      | none => c :: decodeGo 0 r
    else c :: decodeGo 0 r

/-- What an HTML parser reads back from character data: every character reference of
`refNames` is replaced by its character, everything else is kept. -/
def decodeRefs (html : List Char) : List Char := decodeGo 0 html

/-! ## Reviews: the reply composer of one review -/

/-- The action buttons of a review card: `.review-action-btn.reply`, `.review-action-btn.report`
and any other control. -/
inductive Control where
  | reply
  | report
  | other
  deriving DecidableEq, Repr

/-- The direct children of a review card, by class: `.owner-reply`, `.review-footer`, anything
else. -/
inductive BlockKind where
  | ownerReply
  | footer
  | content
  deriving DecidableEq, Repr

/-- A direct child of a review card.  `textHtml` is the inner HTML of the block's
`p.owner-reply-text` (empty for a block that is not an owner reply); `controls` are the action
buttons inside the block, in document order. -/
structure Block where
  kind : BlockKind
  textHtml : List Char
  controls : List Control
  deriving DecidableEq, Repr

/-- The composer `#replyForm-<reviewId>`: whether it carries the class `show`, the value of its
`textarea`, whether the `textarea` has the focus, and the inner HTML and `disabled` flag of
its `.reply-btn.submit` button. -/
structure ReplyForm where
  shown : Bool
  text : List Char
  focused : Bool
  submitHtml : String
  submitDisabled : Bool
  deriving DecidableEq, Repr

/-- The closure that `submitReply` hands to `setTimeout(..., 800)`: it captured the trimmed
reply text and the submit button's original inner HTML. -/
structure ReplyTimer where
  replyText : List Char
  originalText : String
  deriving DecidableEq, Repr

/-- One review: the children of its card `#<reviewId>`, its composer, the pending timers of
`submitReply` (oldest first) and the notifications shown so far. -/
structure Review where
  card : List Block
  form : ReplyForm
  timers : List ReplyTimer
  notes : List Note
  deriving DecidableEq, Repr

/-- The function `toggleReplyForm(reviewId)` on a review whose composer exists: toggle the
class `show`, and focus the `textarea` when the composer is now shown. -/
def toggleReplyForm (s : Review) : Review :=
  let shown := !s.form.shown
  { s with form := { s.form with shown := shown, focused := shown || s.form.focused } }

/-- The first part of `submitReply(reviewId)`, up to `setTimeout`. -/
def submitReply (s : Review) : Review :=
  let replyText := trim s.form.text
  if replyText = [] then
    { s with
      notes := s.notes ++ [⟨"Please enter a reply before submitting.", "warning"⟩]
      form := { s.form with focused := true } }
  else
    { s with
      form := { s.form with
        submitHtml := "<i class=\"bi bi-arrow-repeat spin\"></i>"
        submitDisabled := true }
      timers := s.timers ++ [⟨replyText, s.form.submitHtml⟩] }

/-- The element `ownerReply` built by the timer callback: a `div.owner-reply` whose
`p.owner-reply-text` holds `escapeHtml(replyText)`. -/
def ownerReplyBlock (replyText : List Char) : Block :=
  ⟨.ownerReply, escapeHtml replyText, []⟩

/-- The call `reviewCard.insertBefore(ownerReply, reviewCard.querySelector('.review-footer'))`:
before the first footer, or at the end when the card has no footer. -/
def insertBeforeFooter (b : Block) : List Block → List Block
  | [] => [b]
  | x :: xs => if x.kind = .footer then b :: x :: xs else x :: insertBeforeFooter b xs

/-- The lines `replyBtn = reviewCard.querySelector('.review-action-btn.reply'); if (replyBtn)
replyBtn.remove()`: the first reply button of the card, in document order, is removed. -/
def removeReplyBtn : List Block → List Block
  | [] => []
  | x :: xs =>
    if Control.reply ∈ x.controls then
      { x with controls := x.controls.erase .reply } :: xs
    else x :: removeReplyBtn xs

/-- The callback of `submitReply`, run when its 800 ms timer fires in state `s`. -/
def replyTimerFired (t : ReplyTimer) (s : Review) : Review :=
  { s with
    card := removeReplyBtn (insertBeforeFooter (ownerReplyBlock t.replyText) s.card)
    form := { s.form with
      shown := false
      text := []
      submitHtml := t.originalText
      submitDisabled := false }
    notes := s.notes ++ [⟨"Reply posted successfully!", "success"⟩] }

/-- Firing the `i`-th pending timer of a review. -/
def fireReplyTimer (i : Nat) (s : Review) : Option Review :=
  match s.timers.get? i with
  | none => none
  | some t => some (replyTimerFired t { s with timers := s.timers.eraseIdx i })

/-- Number of `.owner-reply` blocks in a card. -/
def ownerReplyCount (card : List Block) : Nat :=
  card.countP (fun b => b.kind = .ownerReply)

/-- Number of reply buttons in a card. -/
def replyBtnCount (card : List Block) : Nat :=
  (card.map (fun b => b.controls.count .reply)).sum

/-- A review with a reply button in its footer and a composer that holds `"  Thanks!  "`. -/
def thanksReview : Review :=
  { card := [⟨.content, [], []⟩, ⟨.footer, [], [.reply, .report]⟩]
    form := ⟨true, "  Thanks!  ".toList, false, "Post Reply", false⟩
    timers := []
    notes := [] }

/-- A review whose composer holds only white space and whose `textarea` does not have the
focus (the submit button was clicked). -/
def blankReview : Review :=
  { card := [⟨.content, [], []⟩, ⟨.footer, [], [.reply, .report]⟩]
    form := ⟨true, "  \n ".toList, false, "Post Reply", false⟩
    timers := []
    notes := [] }

/-! ## Bookings: the table, its filter tabs, approval and rejection -/

/-- Replace the `i`-th element of a list by its image under `f` (nothing happens when the list
is shorter). -/
def modifyAt {α : Type} (f : α → α) : Nat → List α → List α
  | _, [] => []
  | 0, x :: xs => f x :: xs
  | n + 1, x :: xs => x :: modifyAt f n xs

/-- The values of `data-status` on a booking row. -/
inductive Status where
  | pending
  | approved
  | rejected
  | checkedIn
  deriving DecidableEq, Repr

/-- The argument of `filterBookings` and the key of a filter tab (`tab.dataset.status || 'all'`):
`'all'` or one status. -/
inductive Filter where
  | all
  | only (s : Status)
  deriving DecidableEq, Repr

/-- The buttons inside `.action-btns`, by class. -/
inductive BtnKind where
  | approve
  | reject
  | message
  | other
  deriving DecidableEq, Repr

/-- A button of a booking row: its class, its `disabled` flag and whether it carries the class
`loading`. -/
structure ActionBtn where
  kind : BtnKind
  disabled : Bool
  loading : Bool
  deriving DecidableEq, Repr

/-- A badge cell (`.status-badge` or `.payment-badge`): its `className` and `innerHTML`. -/
structure Badge where
  className : String
  html : String
  deriving DecidableEq, Repr

/-- A booking row `tr`: `dataset.status`, the `.status-badge` cell, the `.payment-badge` cell
when the row has one, the children of `.action-btns` in document order, whether
`style.display` is `'none'`, and `style.animation`. -/
structure BookingRow where
  status : Status
  statusBadge : Badge
  paymentBadge : Option Badge
  buttons : List ActionBtn
  hidden : Bool
  animation : String
  deriving DecidableEq, Repr

/-- The placeholder row `tr.search-empty-state` that the search handler appends to the same
`tbody`: the escaped query it shows, and its `style.display` and `style.animation`.  It has no
`data-status`. -/
structure EmptyRow where
  queryHtml : List Char
  hidden : Bool
  animation : String
  deriving DecidableEq, Repr

/-- A filter tab `.filter-tab`: its key, whether it carries the class `active`, and the number
shown in its `.count` span when it has one. -/
structure FilterTab where
  filter : Filter
  active : Bool
  count : Option Nat
  deriving DecidableEq, Repr

/-- The closures that `approveBooking` and `rejectBooking` hand to `setTimeout(..., 500)`; each
captured its row. -/
inductive BookingTimer where
  | approve (row : Nat)
  | reject (row : Nat)
  deriving DecidableEq, Repr

/-- The bookings page: the booking rows of `.booking-table tbody` in document order, the search
placeholder row that may follow them, the filter tabs, the pending timers (oldest first) and
the notifications shown so far. -/
structure Bookings where
  rows : List BookingRow
  emptyState : Option EmptyRow
  tabs : List FilterTab
  timers : List BookingTimer
  notes : List Note
  deriving DecidableEq, Repr

/-- The object `counts` of `updateFilterCounts`. -/
structure Counts where
  all : Nat
  pending : Nat
  approved : Nat
  rejected : Nat
  checkedIn : Nat
  deriving DecidableEq, Repr

/-- The statement `counts[status]++`. -/
def Counts.bump (c : Counts) : Status → Counts
  | .pending => { c with pending := c.pending + 1 }
  | .approved => { c with approved := c.approved + 1 }
  | .rejected => { c with rejected := c.rejected + 1 }
  | .checkedIn => { c with checkedIn := c.checkedIn + 1 }

/-- The expression `counts[status]` for the key of a tab. -/
def Counts.get (c : Counts) : Filter → Nat
  | .all => c.all
  | .only .pending => c.pending
  | .only .approved => c.approved
  | .only .rejected => c.rejected
  | .only .checkedIn => c.checkedIn

/-- Every `tr` of the `tbody` in document order, as the pair of its `data-status` and of
whether it is hidden (`style.display = 'none'`): the booking rows, then the placeholder row,
which has no status. -/
def tableRows (b : Bookings) : List (Option Status × Bool) :=
  b.rows.map (fun r => (some r.status, r.hidden)) ++
    (b.emptyState.map (fun e => ((none : Option Status), e.hidden))).toList

/-- Number of rows of the `tbody` that are not hidden. -/
def visibleCount (b : Bookings) : Nat :=
  (tableRows b).countP (fun p => !p.2)

/-- The first loop of `updateFilterCounts`: every `tr` adds one to `counts.all`, and one to the
counter of its status when it has one. -/
def tally (sts : List (Option Status)) : Counts :=
  sts.foldl
    (fun c st =>
      let c1 := { c with all := c.all + 1 }
      match st with
      | some s => c1.bump s
      | none => c1)
    ⟨0, 0, 0, 0, 0⟩

/-- The function `updateFilterCounts()`: recount, then write the count of its key into the
`.count` span of every tab that has one. -/
def updateFilterCounts (b : Bookings) : Bookings :=
  let counts := tally ((tableRows b).map Prod.fst)
  { b with tabs := b.tabs.map (fun t => { t with count := t.count.map (fun _ => counts.get t.filter) }) }

/-- The function `filterBookings(status, btn)`, `btn` being the `k`-th filter tab: make `btn` the
only active tab, show the rows that match and hide the others, update the counts. -/
def filterBookings (status : Filter) (k : Nat) (b : Bookings) : Bookings :=
  let tabs := modifyAt (fun t => { t with active := true }) k
    (b.tabs.map (fun t => { t with active := false }))
  let rows := b.rows.map (fun r =>
    if status = .all ∨ Filter.only r.status = status then
      { r with hidden := false, animation := "fadeInUp 0.3s ease" }
    else { r with hidden := true })
  let emptyState := b.emptyState.map (fun e =>
    if status = .all then { e with hidden := false, animation := "fadeInUp 0.3s ease" }
    else { e with hidden := true })
  updateFilterCounts { b with tabs := tabs, rows := rows, emptyState := emptyState }

/-- The lines `x = actionBtns.querySelector('.k'); if (x) x.remove()`: the first button of
class `k` is removed. -/
def removeBtn (k : BtnKind) : List ActionBtn → List ActionBtn
  | [] => []
  | x :: xs => if x.kind = k then xs else x :: removeBtn k xs

/-- The callback that `approveBooking(btn)` gives to the confirmation dialog, run when the user
confirms; `btn` is the `j`-th button of the `i`-th row.  The button gets the class `loading`
and is disabled, and the 500 ms timer is started. -/
def approveConfirmed (i j : Nat) (b : Bookings) : Bookings :=
  { b with
    rows := modifyAt (fun r =>
      { r with buttons := modifyAt (fun x => { x with loading := true, disabled := true }) j r.buttons })
      i b.rows
    timers := b.timers ++ [.approve i] }

/-- The callback that `rejectBooking(btn)` gives to the confirmation dialog. -/
def rejectConfirmed (i j : Nat) (b : Bookings) : Bookings :=
  { b with
    rows := modifyAt (fun r =>
      { r with buttons := modifyAt (fun x => { x with loading := true, disabled := true }) j r.buttons })
      i b.rows
    timers := b.timers ++ [.reject i] }

/-- The payment badge written by a rejection: the "not applicable" sentinel. -/
def naBadge : Badge := ⟨"payment-badge pending", "<i class=\"bi bi-dash\"></i> N/A"⟩

/-- What the timer callback of `approveBooking` does to its row: the status badge and
`dataset.status` become `approved`, and the approve and reject buttons are removed. -/
def approveRow (r : BookingRow) : BookingRow :=
  { r with
    statusBadge := ⟨"status-badge approved", "<i class=\"bi bi-check-circle\"></i> Approved"⟩
    status := .approved
    buttons := removeBtn .reject (removeBtn .approve r.buttons) }

/-- What the timer callback of `rejectBooking` does to its row: the status badge and
`dataset.status` become `rejected`, the payment badge (if the row has one) becomes `N/A`, and
the approve, reject and message buttons are removed. -/
def rejectRow (r : BookingRow) : BookingRow :=
  { r with
    statusBadge := ⟨"status-badge rejected", "<i class=\"bi bi-x-circle\"></i> Rejected"⟩
    status := .rejected
    paymentBadge := r.paymentBadge.map (fun _ => naBadge)
    buttons := removeBtn .message (removeBtn .reject (removeBtn .approve r.buttons)) }

/-- The timer callback of `approveBooking` on the `i`-th row. -/
def approveTimerFired (i : Nat) (b : Bookings) : Bookings :=
  updateFilterCounts
    { b with
      rows := modifyAt approveRow i b.rows
      notes := b.notes ++ [⟨"Booking approved successfully!", "success"⟩] }

/-- The timer callback of `rejectBooking` on the `i`-th row. -/
def rejectTimerFired (i : Nat) (b : Bookings) : Bookings :=
  updateFilterCounts
    { b with
      rows := modifyAt rejectRow i b.rows
      notes := b.notes ++ [⟨"Booking rejected.", "warning"⟩] }

/-- Running the callback of a timer. -/
def BookingTimer.run : BookingTimer → Bookings → Bookings
  | .approve i => approveTimerFired i
  | .reject i => rejectTimerFired i

/-- What can happen on the bookings page: the user confirms the approval or the rejection
started from the `j`-th button of the `i`-th row, or the `k`-th pending timer fires. -/
inductive BookingEvent where
  | confirmApprove (i j : Nat)
  | confirmReject (i j : Nat)
  | fire (k : Nat)
  deriving DecidableEq, Repr

/-- Whether the `j`-th button of the `i`-th row exists, has class `k` and is not disabled, so
that a click on it reaches its `onclick` handler. -/
def clickable (k : BtnKind) (i j : Nat) (b : Bookings) : Bool :=
  match b.rows.get? i with
  | none => false
  | some r =>
    match r.buttons.get? j with
    | none => false
    | some x => x.kind = k && !x.disabled

/-- One step of the booking workflow; `none` when the event cannot happen in this state. -/
def bookingStep (e : BookingEvent) (b : Bookings) : Option Bookings :=
  match e with
  | .confirmApprove i j => if clickable .approve i j b then some (approveConfirmed i j b) else none
  | .confirmReject i j => if clickable .reject i j b then some (rejectConfirmed i j b) else none
  | .fire k =>
    match b.timers.get? k with
    | none => none
    | some t => some (t.run { b with timers := b.timers.eraseIdx k })

/-- A sequence of steps, from left to right. -/
def bookingRun : List BookingEvent → Bookings → Option Bookings
  | [], b => some b
  | e :: es, b => (bookingStep e b).bind (bookingRun es)

/-- The status of the `i`-th booking row. -/
def statusOf (i : Nat) (b : Bookings) : Option Status :=
  (b.rows.get? i).map (fun r => r.status)

/-- A bookings page with one pending row, paid, that has its three action buttons. -/
def onePending : Bookings :=
  { rows := [
      { status := .pending
        statusBadge := ⟨"status-badge pending", "Pending"⟩
        paymentBadge := some ⟨"payment-badge paid", "Paid"⟩
        buttons := [⟨.approve, false, false⟩, ⟨.reject, false, false⟩, ⟨.message, false, false⟩]
        hidden := false
        animation := "" }]
    emptyState := none
    tabs := [⟨.all, true, some 1⟩, ⟨.only .pending, false, some 1⟩,
      ⟨.only .approved, false, some 0⟩, ⟨.only .rejected, false, some 0⟩]
    timers := []
    notes := [] }

/-! ## The add-hostel form: fields and validation -/

/-- The form controls that the script selects. -/
inductive Tag where
  | input
  | textarea
  | select
  deriving DecidableEq, Repr

/-- A control of a form: its tag, its `type` attribute, whether it has the attribute
`required`, its `value`, the text of its previous sibling element when it has one
(`previousElementSibling?.textContent`), and whether it carries the class `is-invalid`. -/
structure Field where
  tag : Tag
  type : String
  required : Bool
  value : List Char
  label : Option String
  invalid : Bool
  deriving DecidableEq, Repr

/-- Whether the attribute selector `[type="t"]` matches the field, for a lower-case `t`: in an
HTML document the value of the `type` attribute is compared without regard to the case of
ASCII letters. -/
def typeIs (f : Field) (t : String) : Bool :=
  asciiLower f.type.toList == t.toList

/-- The fields selected by `'input[required], textarea[required], select[required]'`, which
are the fields that `updateFormProgress` counts. -/
def progressFields (form : List Field) : List Field :=
  form.filter (fun f => f.required)

/-- The variable `filledCount` of `updateFormProgress`: the counted fields whose trimmed value
is not empty. -/
def filledCount (form : List Field) : Nat :=
  (progressFields form).countP (fun f => trim f.value ≠ [])

/-- The character class `[^\s@]`. -/
def emailChar (c : Char) : Bool := !isJsSpace c && c != '@'

/-- The test `/^[^\s@]+@[^\s@]+\.[^\s@]+$/.test(v)`: `v` splits as `a @ b . c` with `a`, `b` and
`c` non-empty runs of the class `[^\s@]`; `i` is the position of the `@` and `j` that of the
dot. -/
def emailPattern (v : List Char) : Bool :=
  (List.range v.length).any (fun i =>
    (List.range v.length).any (fun j =>
      decide (0 < i) && decide (i + 1 < j) && decide (j + 1 < v.length) &&
      v.get? i == some '@' && v.get? j == some '.' &&
      (v.take i).all emailChar &&
      ((v.take j).drop (i + 1)).all emailChar &&
      (v.drop (j + 1)).all emailChar))

/-- The character class `[\d\s\-+()]`. -/
def phoneChar (c : Char) : Bool :=
  ('0' ≤ c && c ≤ '9') || isJsSpace c || c == '-' || c == '+' || c == '(' || c == ')'

/-- The test `/^[\d\s\-+()]{10,}$/.test(v)`: from the start, the longest run of the class is
consumed; it must have at least ten characters and reach the end of the input. -/
def phonePattern (v : List Char) : Bool :=
  let run := v.takeWhile phoneChar
  decide (10 ≤ run.length) && decide (run.length = v.length)

/-- The first loop of `validateForm`, over `input[required]`: the messages it pushes. -/
def requiredErrors (form : List Field) : List String :=
  (form.filter (fun f => f.tag = .input && f.required && decide (trim f.value = []))).map
    (fun f =>
      (match f.label with
        | some l => if l = "" then "Field" else l
        | none => "Field") ++ " is required")

/-- The second loop, over `input[type="email"]`. -/
def emailErrors (form : List Field) : List String :=
  (form.filter (fun f =>
    f.tag = .input && typeIs f "email" && decide (f.value ≠ []) && !emailPattern f.value)).map
    (fun _ => "Please enter a valid email address")

/-- The third loop, over `input[type="tel"]`. -/
def phoneErrors (form : List Field) : List String :=
  (form.filter (fun f =>
    f.tag = .input && typeIs f "tel" && decide (f.value ≠ []) && !phonePattern f.value)).map
    (fun _ => "Please enter a valid phone number")

/-- The array `errors` at the end of the three loops. -/
def formErrors (form : List Field) : List String :=
  requiredErrors form ++ emailErrors form ++ phoneErrors form

/-- The class `is-invalid` of a field after the three loops: the first loop sets or clears it
on a required input, the other two set it on a malformed address or number. -/
def markInvalid (f : Field) : Field :=
  let afterRequired :=
    if f.tag = .input ∧ f.required then decide (trim f.value = []) else f.invalid
  let badEmail := f.tag = .input && typeIs f "email" && decide (f.value ≠ []) && !emailPattern f.value
  let badPhone := f.tag = .input && typeIs f "tel" && decide (f.value ≠ []) && !phonePattern f.value
  { f with invalid := afterRequired || badEmail || badPhone }

/-- The result of `validateForm(form)`: the returned boolean, the form with its `is-invalid`
classes, and the notifications shown. -/
structure Validation where
  ok : Bool
  form : List Field
  notes : List Note
  deriving DecidableEq, Repr

/-- The function `validateForm(form)`. -/
def validateForm (form : List Field) : Validation :=
  match formErrors form with
  | [] => ⟨true, form.map markInvalid, []⟩
  | e :: _ => ⟨false, form.map markInvalid, [⟨e, "error"⟩]⟩

/-- A telephone input that is not required. -/
def telField (v : List Char) : Field :=
  ⟨.input, "tel", false, v, some "Phone", false⟩

/-- A form whose only required field is an empty `textarea` (the hostel description). -/
def descriptionForm : List Field :=
  [⟨.input, "text", true, "Sunrise Hostel".toList, some "Hostel Name *", false⟩,
   ⟨.textarea, "", true, [], some "Description *", false⟩]

/-! ## The add-hostel form: room types -/

/-- A room-type card `.room-type-card`: the identity of the element, the number in its title
`Room Type N`, whether it has a `.remove-room-btn` button, and its required inputs. -/
structure RoomCard where
  id : Nat
  title : Int
  removable : Bool
  fields : List Field
  deriving DecidableEq, Repr

/-- The room-type part of the add-hostel page: whether `#roomTypesContainer` exists, the
`.room-type-card` elements in document order, the global `roomTypeCount`, the identity that the
next created element gets, the pending 300 ms removal timers (each captured its card; oldest
first) and the notifications shown so far.  The opacity and transform styles that animate a
card are not part of the state. -/
structure HostelForm where
  hasContainer : Bool
  cards : List RoomCard
  roomTypeCount : Int
  nextId : Nat
  timers : List Nat
  notes : List Note
  deriving DecidableEq, Repr

/-- The card built by `addRoomType`: a remove button and three required inputs, all empty. -/
def newRoomCard (id : Nat) (n : Int) : RoomCard :=
  { id := id
    title := n
    removable := true
    fields := [
      ⟨.input, "text", true, [], some "Room Name *", false⟩,
      ⟨.input, "number", true, [], some "Price (Rs/month) *", false⟩,
      ⟨.input, "number", true, [], some "Available Rooms *", false⟩] }

/-- The function `addRoomType()`.  Its last statement, `updateFormProgress()`, only rewrites
the progress indicator, which is outside this state. -/
def addRoomType (s : HostelForm) : HostelForm :=
  if s.roomTypeCount ≥ (maxRoomTypes : Int) then
    { s with notes := s.notes ++ [⟨"Maximum 10 room types allowed.", "warning"⟩] }
  else if s.hasContainer then
    { s with
      roomTypeCount := s.roomTypeCount + 1
      cards := s.cards ++ [newRoomCard s.nextId (s.roomTypeCount + 1)]
      nextId := s.nextId + 1 }
  else
    { s with roomTypeCount := s.roomTypeCount + 1 }

/-- The function `removeRoomType(btn)`, `btn` being the remove button of the card `c`: when
the page has more than `minRoomTypes` cards the removal timer is started, otherwise a warning
is shown. -/
def removeRoomType (c : Nat) (s : HostelForm) : HostelForm :=
  if s.cards.length > minRoomTypes then
    { s with timers := s.timers ++ [c] }
  else
    { s with notes := s.notes ++ [⟨"You must have at least 1 room type.", "warning"⟩] }

/-- The timer callback of `removeRoomType`: `card.remove(); roomTypeCount--`.  Removing a card
that is no longer in the document does nothing. -/
def removalTimerFired (c : Nat) (s : HostelForm) : HostelForm :=
  { s with
    cards := s.cards.filter (fun k => k.id ≠ c)
    roomTypeCount := s.roomTypeCount - 1 }

/-- What can happen on the room-type part of the form: a call of `addRoomType`, a click on
the remove button of the card `c`, or the firing of the `k`-th pending removal timer. -/
inductive FormEvent where
  | add
  | remove (c : Nat)
  | fire (k : Nat)
  deriving DecidableEq, Repr

/-- One step of the form; `none` when the event cannot happen in this state: a remove button
can be clicked only while its card is in the document. -/
def formStep (e : FormEvent) (s : HostelForm) : Option HostelForm :=
  match e with
  | .add => some (addRoomType s)
  | .remove c =>
    if s.cards.any (fun k => k.id = c && k.removable) then some (removeRoomType c s) else none
  | .fire k =>
    match s.timers.get? k with
    | none => none
    | some c => some (removalTimerFired c { s with timers := s.timers.eraseIdx k })

/-- A sequence of steps, from left to right. -/
def formRun : List FormEvent → HostelForm → Option HostelForm
  | [], s => some s
  | e :: es, s => (formStep e s).bind (formRun es)

/-- The form as the page loads: two room-type cards (here without remove buttons, so that only
the cards created by `addRoomType` can be removed) and `roomTypeCount = 2`. -/
def initialForm : HostelForm :=
  { hasContainer := true
    cards := [⟨0, 1, false, []⟩, ⟨1, 2, false, []⟩]
    roomTypeCount := 2
    nextId := 2
    timers := []
    notes := [] }

/-- A double click on the remove button of a freshly added card: the card is added, its remove
button is clicked twice before the first removal timer fires, then both timers fire. -/
def doubleRemove : List FormEvent :=
  [.add, .remove 2, .remove 2, .fire 0, .fire 0]

/-! ## Image upload (`handleFiles`) -/

/-- `CONFIG.allowedImageTypes`. -/
def allowedImageTypes : List String := ["image/jpeg", "image/png", "image/webp"]

/-- `CONFIG.maxFileSize`, in bytes. -/
def maxFileSize : Nat := 5 * 1024 * 1024

/-- A `File` handed to the upload handler: its MIME type, its size in bytes, and the data URL
that reading it yields. -/
structure UploadFile where
  type : String
  size : Nat
  dataUrl : String
  deriving DecidableEq, Repr

/-- The upload zone: the `src` of the `.image-preview` thumbnails inside `#imagePreviews`, in
document order; the files whose `FileReader` has been started and has not yet fired `onload`
(oldest first); and the notifications shown so far. -/
structure Uploads where
  previews : List String
  readers : List UploadFile
  notes : List Note
  deriving DecidableEq, Repr

/-- The body of the `forEach` callback of `handleFiles` for one file: a type error, or a size
error, or a `FileReader` is started. -/
def handleFile (s : Uploads) (file : UploadFile) : Uploads :=
  if !allowedImageTypes.contains file.type then
    { s with notes := s.notes ++ [⟨"Please upload only JPEG, PNG, or WebP images.", "error"⟩] }
  else if file.size > maxFileSize then
    { s with notes := s.notes ++ [⟨"File size must be less than 5MB.", "error"⟩] }
  else
    { s with readers := s.readers ++ [file] }

/-- The function `handleFiles(files)`.  Its last statement, `updateFormProgress()`, only
rewrites the progress indicator, which is outside this state. -/
def handleFiles (files : List UploadFile) (s : Uploads) : Uploads :=
  files.foldl handleFile s

/-- The handler `reader.onload` for one file: a thumbnail is appended to `#imagePreviews`. -/
def readerLoaded (file : UploadFile) (s : Uploads) : Uploads :=
  { s with previews := s.previews ++ [file.dataUrl] }

/-- The `k`-th pending `FileReader` fires `onload`. -/
def fireReader (k : Nat) (s : Uploads) : Option Uploads :=
  match s.readers.get? k with
  | none => none
  | some file => some (readerLoaded file { s with readers := s.readers.eraseIdx k })

/-- All pending readers fire `onload`, oldest first. -/
def loadAll (s : Uploads) : Uploads :=
  s.readers.foldl (fun acc file => readerLoaded file acc) { s with readers := [] }

/-- Whether `handleFiles` starts a reader for the file. -/
def accepted (file : UploadFile) : Bool :=
  allowedImageTypes.contains file.type && decide (file.size ≤ maxFileSize)

/-- The notification that `handleFiles` shows for a file it rejects: the type error when the
type is not allowed, otherwise the size error. -/
def rejection (file : UploadFile) : Note :=
  if allowedImageTypes.contains file.type then ⟨"File size must be less than 5MB.", "error"⟩
  else ⟨"Please upload only JPEG, PNG, or WebP images.", "error"⟩

/-! ## Search over the booking table (`initSearch`) -/

/-- A booking row as the search handler sees it: its `textContent`, and whether
`style.display` is `'none'`. -/
structure SearchRow where
  text : List Char
  hidden : Bool
  deriving DecidableEq, Repr

/-- The `tbody` of `.booking-table` as the search handler sees it: the booking rows in document
order, then the placeholder row `tr.search-empty-state` when there is one. -/
structure SearchTable where
  rows : List SearchRow
  emptyState : Option EmptyRow
  deriving DecidableEq, Repr

/-- The call `text.includes(query)`: `query` occurs in `text` as a contiguous run. -/
def includes (text query : List Char) : Bool := decide (query <:+: text)

/-- The `textContent` of the placeholder row, read off the template that the handler assigns to
`emptyRow.innerHTML`: the white space of the template and the sentence around the query, the
character references of which the parser has decoded. -/
def placeholderText (queryHtml : List Char) : List Char :=
  '\n' :: List.replicate 24 ' ' ++ '\n' :: List.replicate 28 ' ' ++
    '\n' :: List.replicate 28 ' ' ++
    "No results found for \"".toList ++ decodeRefs queryHtml ++ "\"".toList ++
    '\n' :: List.replicate 24 ' ' ++ '\n' :: List.replicate 20 ' '

/-- The search handler, run with the value `value` of the search box once the debounce delay
has passed.  `lower` is `String.prototype.toLowerCase`.  The loop visits every `tr` of the
`tbody`, the placeholder row included; then the placeholder is created when nothing is visible,
the query is not empty and no placeholder exists, and removed when something is visible or the
query is empty. -/
def searchHandler (lower : List Char → List Char) (value : List Char) (t : SearchTable) :
    SearchTable :=
  let query := lower value
  let rows := t.rows.map (fun r => { r with hidden := !includes (lower r.text) query })
  let emptyState := t.emptyState.map (fun e =>
    { e with hidden := !includes (lower (placeholderText e.queryHtml)) query })
  let visibleCount :=
    rows.countP (fun r => !r.hidden) + (emptyState.toList.countP (fun e => !e.hidden))
  if visibleCount = 0 ∧ query ≠ [] then
    match emptyState with
    | none => { rows := rows, emptyState := some ⟨escapeHtml query, false, ""⟩ }
    | some e => { rows := rows, emptyState := some e }
  else
    { rows := rows, emptyState := none }

/-- The handler run once for each value of a sequence, in order. -/
def searchRuns (lower : List Char → List Char) (values : List (List Char)) (t : SearchTable) :
    SearchTable :=
  values.foldl (fun acc v => searchHandler lower v acc) t

/-- A table with the two bookings of John Smith and Jane Doe, nothing hidden. -/
def smithDoe : SearchTable :=
  { rows := [⟨"John Smith".toList, false⟩, ⟨"Jane Doe".toList, false⟩]
    emptyState := none }

/-! ## Confirmation dialog (`showConfirmModal`, Escape key) -/

/-- A dialog overlay `.confirm-modal-overlay`: the identity of the element, the title and the
message placed in its `h3` and `p`, the callback `onConfirm` that its Confirm button runs
(by identity), and whether its Confirm button has the `danger` colour. -/
structure Modal where
  id : Nat
  title : String
  message : String
  onConfirm : Nat
  danger : Bool
  deriving DecidableEq, Repr

/-- The dialogs of the page: the overlays in `document.body` in document order, the identity
that the next created element gets, the pending 200 ms timers of `closeModal` (each captured
its overlay; oldest first), and the callbacks run so far, oldest first. -/
structure Dialogs where
  modals : List Modal
  nextId : Nat
  fades : List Nat
  invoked : List Nat
  deriving DecidableEq, Repr

/-- The overlay that `showConfirmModal(title, message, onConfirm, type)` builds in state `s`. -/
def newModal (title message : String) (onConfirm : Nat) (type : String) (s : Dialogs) : Modal :=
  ⟨s.nextId, title, message, onConfirm, type = "danger"⟩

/-- The function `showConfirmModal(title, message, onConfirm, type)`: the first overlay found in
the document, if any, is removed, and the new overlay is appended to the body. -/
def showConfirmModal (title message : String) (onConfirm : Nat) (type : String)
    (s : Dialogs) : Dialogs :=
  { s with
    modals := s.modals.drop 1 ++ [newModal title message onConfirm type s]
    nextId := s.nextId + 1 }

/-- The local function `closeModal` of the overlay `m`: the fade is started and the timer that
will remove `m` is set. -/
def closeModal (m : Modal) (s : Dialogs) : Dialogs :=
  { s with fades := s.fades ++ [m.id] }

/-- The click handler of the Cancel button of `m`. -/
def clickCancel (m : Modal) (s : Dialogs) : Dialogs := closeModal m s

/-- The click handler of the Confirm button of `m`: `closeModal(); onConfirm()`. -/
def clickConfirm (m : Modal) (s : Dialogs) : Dialogs :=
  let s1 := closeModal m s
  { s1 with invoked := s1.invoked ++ [m.onConfirm] }

/-- The click handler of the overlay `m`, for a click on the overlay itself
(`e.target === modal`), outside the dialog body. -/
def clickOverlay (m : Modal) (s : Dialogs) : Dialogs := closeModal m s

/-- The `keydown` handler of `initKeyboardNav` for the key `Escape`, as far as dialogs are
concerned: the first overlay found in the document, if any, is removed at once. -/
def pressEscape (s : Dialogs) : Dialogs :=
  { s with modals := s.modals.drop 1 }

/-- The timer callback of `closeModal`: `modal.remove()` on the overlay it captured. -/
def fadeFired (id : Nat) (s : Dialogs) : Dialogs :=
  { s with modals := s.modals.filter (fun m => m.id ≠ id) }

/-- What can happen to the dialogs: a call of `showConfirmModal`, a click on a button or on the
overlay of a dialog, the Escape key, the firing of the `k`-th pending fade timer. -/
inductive DialogEvent where
  | openModal (title message : String) (onConfirm : Nat) (type : String)
  | confirm (m : Modal)
  | cancel (m : Modal)
  | overlay (m : Modal)
  | escape
  | fire (k : Nat)
  deriving DecidableEq, Repr

/-- One step; `none` when the event cannot happen in this state: only a dialog that is in the
document can be clicked. -/
def dialogStep (e : DialogEvent) (s : Dialogs) : Option Dialogs :=
  match e with
  | .openModal title message f type => some (showConfirmModal title message f type s)
  | .confirm m => if m ∈ s.modals then some (clickConfirm m s) else none
  | .cancel m => if m ∈ s.modals then some (clickCancel m s) else none
  | .overlay m => if m ∈ s.modals then some (clickOverlay m s) else none
  | .escape => some (pressEscape s)
  | .fire k =>
    match s.fades.get? k with
    | none => none
    | some id => some (fadeFired id { s with fades := s.fades.eraseIdx k })

/-- A sequence of steps, from left to right. -/
def dialogRun : List DialogEvent → Dialogs → Option Dialogs
  | [], s => some s
  | e :: es, s => (dialogStep e s).bind (dialogRun es)

/-- The page as it loads: no dialog. -/
def noDialog : Dialogs := ⟨[], 0, [], []⟩

/-! ## The toast of `showNotification` -/

/-- The element `.notification-toast` that `showNotification` builds: its `className`, the
`class` attribute of its icon, and the message placed in its `span`. -/
structure Toast where
  className : String
  iconClass : String
  message : String
  deriving DecidableEq, Repr

/-- The object `icons` of `showNotification`. -/
def icons : List (String × String) :=
  [("success", "bi-check-circle-fill"), ("warning", "bi-exclamation-triangle-fill"),
   ("error", "bi-x-circle-fill"), ("info", "bi-info-circle-fill")]

/-- The toast built by `showNotification(message, type)`: the class is
`notification-toast notification-${type}`, the icon is `icons[type] || icons.info`.  The
severity is taken not to name a member of `Object.prototype` (for `constructor` and the like,
`icons[type]` is that member). -/
def showNotification (message type : String) : Toast :=
  { className := "notification-toast notification-" ++ type
    iconClass := "bi " ++ (icons.lookup type).getD "bi-info-circle-fill"
    message := message }

/-! ## Relative time (`formatRelativeTime`) -/

/-- The units of `formatRelativeTime`. -/
inductive TimeUnit where
  | minute
  | hour
  | day
  deriving DecidableEq, Repr

/-- The shape of the string returned by `formatRelativeTime`: the absolute date of
`formatDate(date)`, or `N unit ago` with or without the plural `s`, or `Just now`. -/
inductive RelativeTime where
  | absolute
  | ago (n : Nat) (unit : TimeUnit) (plural : Bool)
  | justNow
  deriving DecidableEq, Repr

/-- The branches of `formatRelativeTime(date)`, `diff` being `now - date` in milliseconds.  For
the integral `diff` of two dates, `Math.floor` of the quotient is the integer quotient. -/
def relativeTime (diff : Nat) : RelativeTime :=
  let seconds := diff / 1000
  let minutes := seconds / 60
  let hours := minutes / 60
  let days := hours / 24
  if days > 7 then .absolute
  else if days > 0 then .ago days .day (decide (days > 1))
  else if hours > 0 then .ago hours .hour (decide (hours > 1))
  else if minutes > 0 then .ago minutes .minute (decide (minutes > 1))
  else .justNow

/-- The word of a unit. -/
def TimeUnit.word : TimeUnit → String
  | .minute => "minute"
  | .hour => "hour"
  | .day => "day"

/-- The string of a shape; `formatted` is the result of `formatDate(date)`. -/
def RelativeTime.text (formatted : String) : RelativeTime → String
  | .absolute => formatted
  | .ago n unit plural => toString n ++ " " ++ unit.word ++ (if plural then "s" else "") ++ " ago"
  | .justNow => "Just now"

/-- The function `formatRelativeTime(date)`, given `now - date` and `formatDate(date)`. -/
def formatRelativeTime (diff : Nat) (formatted : String) : String :=
  (relativeTime diff).text formatted

/-- The last six characters of a string, the last one first. -/
def lastSix (s : String) : List Char := s.data.reverse.take 6

/-- A tag read off the end of a string: 0 for an end `st now`, 1 for `te ago` or `es ago`
(minute, minutes), 2 for `ur ago` or `rs ago` (hour, hours), 3 for `ay ago` or `ys ago` (day,
days), 4 otherwise. -/
def unitTag (s : String) : Nat :=
  if lastSix s = "st now".toList.reverse then 0
  else if lastSix s = "te ago".toList.reverse ∨ lastSix s = "es ago".toList.reverse then 1
  else if lastSix s = "ur ago".toList.reverse ∨ lastSix s = "rs ago".toList.reverse then 2
  else if lastSix s = "ay ago".toList.reverse ∨ lastSix s = "ys ago".toList.reverse then 3
  else 4

/-! ## Reviews: what the user can do with one review -/

/-- What can happen to one review through the page: a click on the reply button of the card
(`toggleReplyForm`), typing into the composer, a click on the submit button of the composer
(`submitReply`), the firing of the `k`-th pending timer of `submitReply`. -/
inductive ReviewEvent where
  | clickReply
  | typeText (t : List Char)
  | clickSubmit
  | fire (k : Nat)
  deriving DecidableEq, Repr

/-- One step; `none` when the event cannot happen in this state: the reply button can be
clicked only while the card has one, the composer can be typed into and its submit button
clicked only while the composer is shown, and a disabled submit button does not react. -/
def reviewStep (e : ReviewEvent) (s : Review) : Option Review :=
  match e with
  | .clickReply => if 0 < replyBtnCount s.card then some (toggleReplyForm s) else none
  | .typeText t => if s.form.shown then some { s with form := { s.form with text := t } } else none
  | .clickSubmit =>
    if s.form.shown && !s.form.submitDisabled then some (submitReply s) else none
  | .fire k => fireReplyTimer k s

/-- A sequence of steps, from left to right. -/
def reviewRun : List ReviewEvent → Review → Option Review
  | [], s => some s
  | e :: es, s => (reviewStep e s).bind (reviewRun es)

/-- The condition that the steps of a review preserve: the owner replies and the pending
timers are at most one together; while a timer is pending the submit button is disabled; once
the card has an owner reply, the composer is hidden and the card has no reply button; and the
card has at most one reply button. -/
def ReplyOnce (s : Review) : Prop :=
  ownerReplyCount s.card + s.timers.length ≤ 1 ∧
  (s.timers ≠ [] → s.form.submitDisabled = true) ∧
  (1 ≤ ownerReplyCount s.card → s.form.shown = false ∧ replyBtnCount s.card = 0) ∧
  replyBtnCount s.card ≤ 1

/-! ## The progress indicator (`updateFormProgress`) -/

/-- Rounding of the quotient `a / b` to an integer, to the nearest and to the even one at a
tie: the rounding of binary64 arithmetic. -/
def roundHalfEven (a b : Nat) : Nat :=
  let q := a / b
  let r := a % b
  if 2 * r < b then q else if b < 2 * r then q + 1 else if q % 2 = 0 then q else q + 1

/-- A positive binary64 number `mant / 2 ^ scale`. -/
structure Dyadic where
  mant : Nat
  scale : Nat
  deriving DecidableEq, Repr

/-- The least `s` from the given one, within `fuel` steps, with `target ≤ a * 2 ^ s`. -/
def shiftFrom (a target : Nat) : Nat → Nat → Nat
  | 0, s => s
  | fuel + 1, s => if target ≤ a * 2 ^ s then s else shiftFrom a target fuel (s + 1)

/-- The scale of the binary64 number nearest to `a / b`, for `0 < a` and `a / b < 2 ^ 52`: the
least `s` with `2 ^ 52 ≤ (a / b) * 2 ^ s`, so that the significand has 53 bits. -/
def binaryShift (a b : Nat) : Nat := shiftFrom a (b * 2 ^ 52) (b * 2 ^ 52) 0

/-- The binary64 number nearest to `a / b` (ties to even), for `0 < a`, `0 < b` and
`a / b < 2 ^ 52`: the result of a division or multiplication of binary64 numbers whose exact
value is `a / b`. -/
def roundDouble (a b : Nat) : Dyadic :=
  ⟨roundHalfEven (a * 2 ^ binaryShift a b) b, binaryShift a b⟩

/-- The value `Math.round((filledCount / requiredInputs.length) * 100)`, `none` standing for
`NaN`: the quotient and the product are rounded to binary64, and `Math.round(x)` is
the floor of `x + 1/2`. -/
def progressPercent (filled total : Nat) : Option Nat :=
  if total = 0 then none
  else if filled = 0 then some 0
  else
    let q := roundDouble filled total
    let x := roundDouble (q.mant * 100) (2 ^ q.scale)
    some ((2 * x.mant + 2 ^ x.scale) / 2 ^ (x.scale + 1))

/-- The progress indicator: `style.width` of `.form-progress-fill` and `textContent` of
`.form-progress-text`, each when the element exists. -/
structure ProgressView where
  barWidth : Option String
  text : Option String
  deriving DecidableEq, Repr

/-- The function `updateFormProgress()` on a page that has the form `#addHostelForm`.  A width
of `NaN%` is not a valid length, so that assignment leaves `style.width` as it was. -/
def updateFormProgress (form : List Field) (v : ProgressView) : ProgressView :=
  let progress := progressPercent (filledCount form) (progressFields form).length
  { barWidth := v.barWidth.map (fun old =>
      match progress with
      | some p => toString p ++ "%"
      | none => old)
    text := v.text.map (fun _ =>
      match progress with
      | some p => toString p ++ "% complete"
      | none => "NaN% complete") }


/-! ## `escapeHtml` -/

theorem decodeGo_skip (pre r : List Char) :
    decodeGo pre.length (pre ++ r) = decodeGo 0 r := by
  induction pre with
  | nil => rfl
  | cons a pre ih => simpa [decodeGo] using ih

theorem decodeGo_ref (name : List Char) (ch : Char) (r : List Char)
    (h : matchRef (name ++ r) = some (name, ch)) :
    decodeGo 0 ('&' :: (name ++ r)) = ch :: decodeGo 0 r := by
  rw [decodeGo, if_pos rfl, h]
  simp only [decodeGo_skip]

theorem decodeGo_plain (c : Char) (r : List Char) (h : c ≠ '&') :
    decodeGo 0 (c :: r) = c :: decodeGo 0 r := by
  rw [decodeGo, if_neg h]

theorem decodeGo_escapeChar (c : Char) (r : List Char) :
    decodeGo 0 (escapeChar c ++ r) = c :: decodeGo 0 r := by
  unfold escapeChar
  split_ifs with h1 h2 h3 h4
  · subst h1
    exact decodeGo_ref "amp;".toList '&' r (by simp [matchRef, refNames])
  · subst h2
    exact decodeGo_ref "nbsp;".toList nbsp r (by simp [matchRef, refNames])
  · subst h3
    exact decodeGo_ref "lt;".toList '<' r (by simp [matchRef, refNames])
  · subst h4
    exact decodeGo_ref "gt;".toList '>' r (by simp [matchRef, refNames])
  · exact decodeGo_plain c r h1

theorem decodeRefs_escapeHtml (t : List Char) : decodeRefs (escapeHtml t) = t := by
  unfold decodeRefs escapeHtml
  induction t with
  | nil => rfl
  | cons c t ih => rw [List.flatMap_cons, decodeGo_escapeChar, ih]

theorem escapeChar_no_angle (c x : Char) (hx : x ∈ escapeChar c) : x ≠ '<' ∧ x ≠ '>' := by
  unfold escapeChar at hx
  split_ifs at hx with h1 h2 h3 h4
  · simp at hx
    rcases hx with h | h | h | h | h <;> subst h <;> decide
  · simp at hx
    rcases hx with h | h | h | h | h | h <;> subst h <;> decide
  · simp at hx
    rcases hx with h | h | h | h <;> subst h <;> decide
  · simp at hx
    rcases hx with h | h | h | h <;> subst h <;> decide
  · simp at hx
    subst hx
    exact ⟨h3, h4⟩

theorem amp_split_ref (name : List Char) (pre post : List Char) (hn : '&' ∉ name)
    (h : '&' :: name = pre ++ '&' :: post) : pre = [] ∧ post = name := by
  cases pre with
  | nil => simp at h; exact ⟨rfl, h.symm⟩
  | cons a pre =>
    simp at h
    exact absurd (h.2 ▸ (by simp : '&' ∈ pre ++ '&' :: post)) hn

theorem escapeChar_amp (c : Char) (pre post : List Char)
    (h : escapeChar c = pre ++ '&' :: post) :
    pre = [] ∧ ∃ p ∈ refNames, post = p.1 := by
  unfold escapeChar at h
  split_ifs at h with h1 h2 h3 h4
  · have := amp_split_ref "amp;".toList pre post (by decide) h
    exact ⟨this.1, ("amp;".toList, '&'), by simp [refNames], this.2⟩
  · have := amp_split_ref "nbsp;".toList pre post (by decide) h
    exact ⟨this.1, ("nbsp;".toList, nbsp), by simp [refNames], this.2⟩
  · have := amp_split_ref "lt;".toList pre post (by decide) h
    exact ⟨this.1, ("lt;".toList, '<'), by simp [refNames], this.2⟩
  · have := amp_split_ref "gt;".toList pre post (by decide) h
    exact ⟨this.1, ("gt;".toList, '>'), by simp [refNames], this.2⟩
  · cases pre with
    | nil => simp at h; exact absurd h.1 h1
    | cons a pre => simp at h

theorem escapeHtml_amp (t pre post : List Char) (h : escapeHtml t = pre ++ '&' :: post) :
    ∃ p ∈ refNames, ∃ rest, post = p.1 ++ rest := by
  induction t generalizing pre with
  | nil => simp [escapeHtml] at h
  | cons c t ih =>
    have h2 : escapeChar c ++ escapeHtml t = pre ++ '&' :: post := by
      simpa [escapeHtml] using h
    rcases List.append_eq_append_iff.mp h2 with ⟨a, _, ha⟩ | ⟨b, hb, hb2⟩
    · exact ih a ha
    · cases b with
      | nil => exact ih [] (by simpa using hb2.symm)
      | cons x b =>
        simp at hb2
        obtain ⟨hx, hpost⟩ := hb2
        subst hx
        obtain ⟨_, p, hp, hpb⟩ := escapeChar_amp c pre b hb
        exact ⟨p, hp, escapeHtml t, by rw [hpost, hpb]⟩

/-- C1: for every string `t`, `escapeHtml t` contains neither `<` nor `>`, every `&` in it is
directly followed by the name of a character reference (`amp;`, `lt;`, `gt;` or `nbsp;`),
and decoding the character references gives back exactly `t`. -/
theorem escapeHtml_safe (t : List Char) :
    (∀ x ∈ escapeHtml t, x ≠ '<' ∧ x ≠ '>') ∧
    (∀ pre post, escapeHtml t = pre ++ '&' :: post →
      ∃ p ∈ refNames, ∃ rest, post = p.1 ++ rest) ∧
    decodeRefs (escapeHtml t) = t := by
  refine ⟨?_, fun pre post h => escapeHtml_amp t pre post h, decodeRefs_escapeHtml t⟩
  intro x hx
  obtain ⟨c, _, hc⟩ := List.mem_flatMap.mp hx
  exact escapeChar_no_angle c x hc

/-! ## `submitReply` -/

theorem insertBeforeFooter_split (b : Block) (pre : List Block) (f : Block) (post : List Block)
    (hf : f.kind = .footer) (hpre : ∀ x ∈ pre, x.kind ≠ .footer) :
    insertBeforeFooter b (pre ++ f :: post) = pre ++ b :: f :: post := by
  induction pre with
  | nil => simp [insertBeforeFooter, hf]
  | cons x pre ih =>
    have hx : x.kind ≠ .footer := hpre x (by simp)
    simp [insertBeforeFooter, hx, ih (fun y hy => hpre y (by simp [hy]))]

theorem insertBeforeFooter_ownerReplyCount (b : Block) (hb : b.kind = .ownerReply)
    (l : List Block) :
    ownerReplyCount (insertBeforeFooter b l) = ownerReplyCount l + 1 := by
  induction l with
  | nil => simp [insertBeforeFooter, ownerReplyCount, hb]
  | cons x l ih =>
    unfold insertBeforeFooter
    split_ifs with h
    · simp [ownerReplyCount, List.countP_cons, hb]
    · simp only [ownerReplyCount, List.countP_cons] at ih ⊢
      omega

theorem removeReplyBtn_kinds (l : List Block) :
    (removeReplyBtn l).map Block.kind = l.map Block.kind ∧
    (removeReplyBtn l).map Block.textHtml = l.map Block.textHtml := by
  induction l with
  | nil => simp [removeReplyBtn]
  | cons x l ih =>
    unfold removeReplyBtn
    split_ifs with h
    · simp
    · simp [ih.1, ih.2]

theorem removeReplyBtn_ownerReplyCount (l : List Block) :
    ownerReplyCount (removeReplyBtn l) = ownerReplyCount l := by
  have h := (removeReplyBtn_kinds l).1
  have e : ∀ m : List Block,
      ownerReplyCount m = (m.map Block.kind).countP (fun k => k = .ownerReply) := by
    intro m
    simp [ownerReplyCount, List.countP_map, Function.comp_def]
  rw [e, e, h]

theorem removeReplyBtn_count (l : List Block) :
    replyBtnCount (removeReplyBtn l) = replyBtnCount l - 1 := by
  induction l with
  | nil => simp [removeReplyBtn, replyBtnCount]
  | cons x l ih =>
    unfold removeReplyBtn
    split_ifs with h
    · have hpos : 0 < x.controls.count .reply := List.count_pos_iff.mpr h
      simp [replyBtnCount, List.count_erase_self]
      omega
    · have h0 : x.controls.count .reply = 0 := List.count_eq_zero.mpr h
      simp only [replyBtnCount, List.map_cons, List.sum_cons, h0] at ih ⊢
      omega

theorem insertBeforeFooter_replyBtnCount (b : Block) (hb : b.controls = [])
    (l : List Block) : replyBtnCount (insertBeforeFooter b l) = replyBtnCount l := by
  induction l with
  | nil => simp [insertBeforeFooter, replyBtnCount, hb]
  | cons x l ih =>
    unfold insertBeforeFooter
    split_ifs with h
    · simp [replyBtnCount, hb]
    · simp only [replyBtnCount, List.map_cons, List.sum_cons] at ih ⊢
      omega

theorem removeReplyBtn_append (l₁ l₂ : List Block) :
    removeReplyBtn (l₁ ++ l₂) = removeReplyBtn l₁ ++ l₂ ∨
    removeReplyBtn (l₁ ++ l₂) = l₁ ++ removeReplyBtn l₂ := by
  induction l₁ with
  | nil => right; rfl
  | cons x l₁ ih =>
    by_cases h : Control.reply ∈ x.controls
    · left; simp [removeReplyBtn, h]
    · rcases ih with ih | ih
      · left; simp [removeReplyBtn, h, ih]
      · right; simp [removeReplyBtn, h, ih]

theorem removeReplyBtn_around (pre : List Block) (b f : Block) (post : List Block)
    (hb : b.controls = []) :
    ∃ pre' f' post', removeReplyBtn (pre ++ b :: f :: post) = pre' ++ b :: f' :: post' ∧
      pre'.map Block.kind = pre.map Block.kind ∧ f'.kind = f.kind ∧
      post'.map Block.kind = post.map Block.kind := by
  rcases removeReplyBtn_append pre (b :: f :: post) with h | h
  · exact ⟨removeReplyBtn pre, f, post, h, (removeReplyBtn_kinds pre).1, rfl, rfl⟩
  · have hb' : Control.reply ∉ b.controls := by simp [hb]
    have e : removeReplyBtn (b :: f :: post) = b :: removeReplyBtn (f :: post) := by
      simp [removeReplyBtn, hb']
    have k := (removeReplyBtn_kinds (f :: post)).1
    cases hr : removeReplyBtn (f :: post) with
    | nil => rw [hr] at k; simp at k
    | cons f' post' =>
      rw [hr] at k
      simp only [List.map_cons, List.cons.injEq] at k
      exact ⟨pre, f', post', by rw [h, e, hr], rfl, k.1, k.2⟩

/-- C2: when the trimmed composer text is not empty, `submitReply` starts exactly one timer,
which captured the trimmed text; and in whatever state `s'` that timer fires, the card has one
owner-reply block more than before, the new block stands immediately before the (first) footer,
its text paragraph is `escapeHtml (trim t)` and reads back as `trim t`, one reply button has
been removed from the card, and the composer is hidden with empty text. -/
theorem submitReply_posts_reply (s : Review) (h : trim s.form.text ≠ []) :
    ∃ tm : ReplyTimer,
      (submitReply s).timers = s.timers ++ [tm] ∧
      tm.replyText = trim s.form.text ∧
      ∀ s' : Review,
        ownerReplyCount (replyTimerFired tm s').card = ownerReplyCount s'.card + 1 ∧
        (∀ pre f post, s'.card = pre ++ f :: post → f.kind = .footer →
          (∀ x ∈ pre, x.kind ≠ .footer) →
          ∃ pre' f' post',
            (replyTimerFired tm s').card
              = pre' ++ ownerReplyBlock (trim s.form.text) :: f' :: post' ∧
            pre'.map Block.kind = pre.map Block.kind ∧ f'.kind = .footer ∧
            post'.map Block.kind = post.map Block.kind) ∧
        (ownerReplyBlock (trim s.form.text)).textHtml = escapeHtml (trim s.form.text) ∧
        decodeRefs (ownerReplyBlock (trim s.form.text)).textHtml = trim s.form.text ∧
        replyBtnCount (replyTimerFired tm s').card = replyBtnCount s'.card - 1 ∧
        (replyTimerFired tm s').form.shown = false ∧
        (replyTimerFired tm s').form.text = [] := by
  refine ⟨⟨trim s.form.text, s.form.submitHtml⟩, ?_, rfl, ?_⟩
  · simp [submitReply, h]
  · intro s'
    refine ⟨?_, ?_, rfl, decodeRefs_escapeHtml _, ?_, rfl, rfl⟩
    · simp only [replyTimerFired]
      rw [removeReplyBtn_ownerReplyCount, insertBeforeFooter_ownerReplyCount _ rfl]
    · intro pre f post hc hf hpre
      simp only [replyTimerFired]
      rw [hc, insertBeforeFooter_split _ pre f post hf hpre]
      obtain ⟨pre', f', post', e, h1, h2, h3⟩ :=
        removeReplyBtn_around pre (ownerReplyBlock (trim s.form.text)) f post rfl
      exact ⟨pre', f', post', e, h1, h2.trans hf, h3⟩
    · simp only [replyTimerFired]
      rw [removeReplyBtn_count, insertBeforeFooter_replyBtnCount _ rfl]

/-- Witness of C2: the composer text `"  Thanks!  "` on `thanksReview`. -/
theorem submitReply_posts_reply_witness :
    trim thanksReview.form.text = "Thanks!".toList ∧
    ∃ tm : ReplyTimer,
      (submitReply thanksReview).timers = thanksReview.timers ++ [tm] ∧
      tm.replyText = trim thanksReview.form.text ∧
      (replyTimerFired tm (submitReply thanksReview)).card =
        [⟨.content, [], []⟩, ⟨.ownerReply, "Thanks!".toList, []⟩, ⟨.footer, [], [.report]⟩] := by
  refine ⟨by decide, ?_⟩
  obtain ⟨tm, h1, h2, _⟩ := submitReply_posts_reply thanksReview (by decide)
  refine ⟨tm, h1, h2, ?_⟩
  have e : tm = ⟨"Thanks!".toList, "Post Reply"⟩ := by
    have h3 : (submitReply thanksReview).timers = [⟨"Thanks!".toList, "Post Reply"⟩] := by
      decide
    rw [h3] at h1
    simpa [thanksReview] using h1.symm
  subst e
  decide

/-- C3, as the code has it: when the composer text is empty or only white space, `submitReply`
changes nothing but two things: it adds one warning notification, and it gives the focus to the
composer's `textarea`.  The card, the composer's text and visibility, the submit button and the
pending timers are as before. -/
theorem submitReply_blank (s : Review) (h : trim s.form.text = []) :
    submitReply s =
      { s with
        notes := s.notes ++ [⟨"Please enter a reply before submitting.", "warning"⟩]
        form := { s.form with focused := true } } := by
  simp [submitReply, h]

/-- Witness of C3 on `blankReview`. -/
theorem submitReply_blank_witness :
    trim blankReview.form.text = [] ∧
    (submitReply blankReview).card = blankReview.card ∧
    (submitReply blankReview).timers = [] ∧
    (submitReply blankReview).form.text = blankReview.form.text ∧
    (submitReply blankReview).form.submitDisabled = false := by
  have e := submitReply_blank blankReview (by decide)
  rw [e]
  decide

/-- Counterexample to C3 as stated: on `blankReview` the warning notification is not the only
effect, the `textarea` also receives the focus (`textarea.focus()`). -/
theorem submitReply_blank_moves_focus :
    trim blankReview.form.text = [] ∧
    blankReview.form.focused = false ∧
    (submitReply blankReview).form.focused = true ∧
    submitReply blankReview ≠
      { blankReview with
        notes := blankReview.notes ++ [⟨"Please enter a reply before submitting.", "warning"⟩] } := by
  decide

/-! ## Bookings -/

theorem get?_modifyAt {α : Type} (f : α → α) (i : Nat) (l : List α) :
    (modifyAt f i l).get? i = (l.get? i).map f := by
  induction l generalizing i with
  | nil => cases i <;> rfl
  | cons x l ih =>
    cases i with
    | zero => rfl
    | succ n => simpa [modifyAt] using ih n

theorem updateFilterCounts_rows (b : Bookings) : (updateFilterCounts b).rows = b.rows := rfl

/-- C4: a confirmed `rejectBooking` starts the timer of its row, and in whatever state `b'`
that timer fires, the row's status is `rejected` afterwards and its payment badge, whatever it
was, is the `N/A` sentinel. -/
theorem rejectBooking_completed (b : Bookings) (i j : Nat) :
    (rejectConfirmed i j b).timers = b.timers ++ [.reject i] ∧
    ∀ (b' : Bookings) (r : BookingRow), b'.rows.get? i = some r →
      ∃ r', (rejectTimerFired i b').rows.get? i = some r' ∧
        r'.status = .rejected ∧
        ∀ pay, r.paymentBadge = some pay → r'.paymentBadge = some naBadge := by
  refine ⟨rfl, ?_⟩
  intro b' r hr
  have h : (rejectTimerFired i b').rows.get? i = (b'.rows.get? i).map rejectRow := by
    rw [rejectTimerFired, updateFilterCounts_rows]
    exact get?_modifyAt rejectRow i b'.rows
  rw [hr] at h
  refine ⟨rejectRow r, h, rfl, ?_⟩
  intro pay hpay
  simp [rejectRow, hpay]

/-- Witness of C4: the paid pending row of `onePending`, rejected from its second button. -/
theorem rejectBooking_completed_witness :
    ∃ r', (rejectTimerFired 0 (rejectConfirmed 0 1 onePending)).rows.get? 0 = some r' ∧
      r'.status = .rejected ∧ r'.paymentBadge = some naBadge := by
  obtain ⟨r', h1, h2, h3⟩ :=
    (rejectBooking_completed onePending 0 1).2 (rejectConfirmed 0 1 onePending)
      { status := .pending
        statusBadge := ⟨"status-badge pending", "Pending"⟩
        paymentBadge := some ⟨"payment-badge paid", "Paid"⟩
        buttons := [⟨.approve, false, false⟩, ⟨.reject, true, true⟩, ⟨.message, false, false⟩]
        hidden := false
        animation := "" } (by decide)
  exact ⟨r', h1, h2, h3 _ rfl⟩

/-- C5 fails on the code: on `onePending` the user confirms the rejection, then confirms the
approval while the rejection's timer is pending (the approve button is still enabled).  When
the first timer fires the row is `rejected`; when the second fires the same row is
`approved`. -/
theorem rejected_row_becomes_approved :
    (bookingRun [.confirmReject 0 1, .confirmApprove 0 0, .fire 0] onePending).map (statusOf 0)
      = some (some .rejected) ∧
    (bookingRun [.confirmReject 0 1, .confirmApprove 0 0, .fire 0, .fire 0] onePending).map
      (statusOf 0) = some (some .approved) := by
  decide

theorem Counts.get_bump (c : Counts) (s : Status) (f : Filter) :
    (c.bump s).get f = c.get f + (if f = .only s then 1 else 0) := by
  cases s <;> cases f with
  | all => rfl
  | only t => cases t <;> rfl

theorem tally_foldl (sts : List (Option Status)) (c : Counts) :
    (sts.foldl
      (fun c st =>
        let c1 := { c with all := c.all + 1 }
        match st with
        | some s => c1.bump s
        | none => c1) c).all = c.all + sts.length ∧
    ∀ s : Status,
      (sts.foldl
        (fun c st =>
          let c1 := { c with all := c.all + 1 }
          match st with
          | some s => c1.bump s
          | none => c1) c).get (.only s) = c.get (.only s) + sts.count (some s) := by
  induction sts generalizing c with
  | nil => simp
  | cons st sts ih =>
    simp only [List.foldl_cons, List.length_cons]
    cases st with
    | none =>
      obtain ⟨h1, h2⟩ := ih { c with all := c.all + 1 }
      refine ⟨by rw [h1]; show c.all + 1 + sts.length = _; omega, fun s => ?_⟩
      rw [h2 s]
      have e : Counts.get { c with all := c.all + 1 } (.only s) = c.get (.only s) := by
        cases s <;> rfl
      rw [e]
      simp [List.count_cons]
    | some t =>
      obtain ⟨h1, h2⟩ := ih (Counts.bump { c with all := c.all + 1 } t)
      refine ⟨?_, fun s => ?_⟩
      · rw [h1]
        have e : (Counts.bump { c with all := c.all + 1 } t).all = c.all + 1 := by
          cases t <;> rfl
        rw [e]
        omega
      · rw [h2 s, Counts.get_bump]
        have e : Counts.get { c with all := c.all + 1 } (.only s) = c.get (.only s) := by
          cases s <;> rfl
        rw [e]
        by_cases hts : t = s
        · subst hts
          simp [List.count_cons]
          omega
        · have h3 : Filter.only s ≠ Filter.only t := by
            intro h; injection h with h; exact hts h.symm
          simp [List.count_cons, h3, hts]

theorem tally_all (sts : List (Option Status)) : (tally sts).get .all = sts.length := by
  have h := (tally_foldl sts ⟨0, 0, 0, 0, 0⟩).1
  simpa [tally, Counts.get] using h

theorem tally_only (sts : List (Option Status)) (s : Status) :
    (tally sts).get (.only s) = sts.count (some s) := by
  have h := (tally_foldl sts ⟨0, 0, 0, 0, 0⟩).2 s
  have z : (⟨0, 0, 0, 0, 0⟩ : Counts).get (.only s) = 0 := by cases s <;> rfl
  rw [z, Nat.zero_add] at h
  exact h

theorem map_modifyAt {α β : Type} (g : α → α) (h : α → β) (hg : ∀ x, h (g x) = h x)
    (k : Nat) (l : List α) : (modifyAt g k l).map h = l.map h := by
  induction l generalizing k with
  | nil => cases k <;> rfl
  | cons x l ih =>
    cases k with
    | zero => simp [modifyAt, hg]
    | succ n => simp [modifyAt, ih n]

/-- The rows after `filterBookings(f)`: each keeps its status and is hidden unless `f` is
`'all'` or its status is `f`. -/
theorem filterBookings_tableRows (f : Filter) (k : Nat) (b : Bookings) :
    tableRows (filterBookings f k b) =
      (tableRows b).map (fun p =>
        (p.1, !(decide (f = .all) || decide (p.1.map Filter.only = some f)))) := by
  simp only [filterBookings, updateFilterCounts, tableRows, List.map_append, List.map_map]
  congr 1
  · apply List.map_congr_left
    intro r _
    by_cases h : f = .all ∨ Filter.only r.status = f
    · rcases h with h | h <;> simp [h]
    · have h1 : f ≠ .all := fun e => h (Or.inl e)
      have h2 : Filter.only r.status ≠ f := fun e => h (Or.inr e)
      simp [h1, h2]
  · cases b.emptyState with
    | none => rfl
    | some e =>
      by_cases h : f = .all
      · simp [h]
      · simp [h]

theorem updateFilterCounts_tab (b : Bookings) (t : FilterTab) (n : Nat)
    (ht : t ∈ (updateFilterCounts b).tabs) (hn : t.count = some n) :
    n = (tally ((tableRows b).map Prod.fst)).get t.filter := by
  simp only [updateFilterCounts, List.mem_map] at ht
  obtain ⟨t0, _, rfl⟩ := ht
  cases h0 : t0.count with
  | none => simp [h0] at hn
  | some m =>
    simp only [h0, Option.map_some', Option.some.injEq] at hn
    exact hn.symm

theorem filterBookings_tab (f : Filter) (k : Nat) (b : Bookings) (t : FilterTab) (n : Nat)
    (ht : t ∈ (filterBookings f k b).tabs) (hn : t.count = some n) :
    n = (tally ((tableRows b).map Prod.fst)).get t.filter := by
  have h := updateFilterCounts_tab _ t n ht hn
  have e : ∀ b1 : Bookings, tableRows (updateFilterCounts b1) = tableRows b1 := fun _ => rfl
  have e2 := filterBookings_tableRows f k b
  unfold filterBookings at e2
  simp only [] at e2
  rw [e] at e2
  rw [e2, List.map_map] at h
  exact h

theorem filterBookings_tabs_kept (f : Filter) (k : Nat) (b : Bookings) :
    (filterBookings f k b).tabs.map (fun t => (t.filter, t.count.isSome)) =
      b.tabs.map (fun t => (t.filter, t.count.isSome)) := by
  simp only [filterBookings, updateFilterCounts, List.map_map]
  have h := map_modifyAt (fun t : FilterTab => { t with active := true })
    (fun t : FilterTab => (t.filter, (t.count.map
      (fun _ => (tally ((tableRows b).map Prod.fst)).get t.filter)).isSome))
    (fun _ => rfl) k (b.tabs.map (fun t => { t with active := false }))
  simp only [List.map_map] at h
  simp only [Function.comp_def, Option.isSome_map'] at h ⊢
  convert h using 2

/-- C6: after `filterBookings(s)` for a status `s`, a row of the table is visible exactly when
its status is `s`, and every tab of key `s` that has a count span shows the number of visible
rows; after `filterBookings('all')` every row is visible and every `all` tab that has a count
span shows the number of rows.  The rows keep their statuses, the tabs keep their keys and
their count spans. -/
theorem filterBookings_shows_matching (b : Bookings) (k : Nat) :
    (∀ s : Status,
      (tableRows (filterBookings (.only s) k b)).map Prod.fst = (tableRows b).map Prod.fst ∧
      (filterBookings (.only s) k b).tabs.map (fun t => (t.filter, t.count.isSome)) =
        b.tabs.map (fun t => (t.filter, t.count.isSome)) ∧
      (∀ p ∈ tableRows (filterBookings (.only s) k b), (p.2 = false ↔ p.1 = some s)) ∧
      (∀ t ∈ (filterBookings (.only s) k b).tabs, t.filter = .only s →
        ∀ n, t.count = some n → n = visibleCount (filterBookings (.only s) k b))) ∧
    ((tableRows (filterBookings .all k b)).map Prod.fst = (tableRows b).map Prod.fst ∧
      (filterBookings .all k b).tabs.map (fun t => (t.filter, t.count.isSome)) =
        b.tabs.map (fun t => (t.filter, t.count.isSome)) ∧
      (∀ p ∈ tableRows (filterBookings .all k b), p.2 = false) ∧
      (∀ t ∈ (filterBookings .all k b).tabs, t.filter = .all →
        ∀ n, t.count = some n → n = (tableRows (filterBookings .all k b)).length)) := by
  refine ⟨fun s => ⟨?_, filterBookings_tabs_kept _ k b, ?_, ?_⟩,
    ?_, filterBookings_tabs_kept _ k b, ?_, ?_⟩
  · rw [filterBookings_tableRows, List.map_map]; rfl
  · intro p hp
    rw [filterBookings_tableRows] at hp
    obtain ⟨q, _, rfl⟩ := List.mem_map.mp hp
    cases hq : q.1 with
    | none => simp [hq]
    | some s' => simp [hq]
  · intro t ht hf n hn
    have h := filterBookings_tab _ k b t n ht hn
    rw [hf, tally_only] at h
    rw [h, visibleCount, filterBookings_tableRows, List.countP_map, List.count_eq_countP,
      List.countP_map]
    apply List.countP_congr
    intro p _
    obtain ⟨st, hd⟩ := p
    cases st with
    | none => simp
    | some s' =>
      by_cases e : s' = s
      · simp [e]
      · have e' : ¬ s = s' := fun h => e h.symm
        simp [e, e']
  · rw [filterBookings_tableRows, List.map_map]; rfl
  · intro p hp
    rw [filterBookings_tableRows] at hp
    obtain ⟨q, _, rfl⟩ := List.mem_map.mp hp
    simp
  · intro t ht hf n hn
    have h := filterBookings_tab _ k b t n ht hn
    rw [hf, tally_all] at h
    rw [h, filterBookings_tableRows]
    simp

/-! ## Room types -/

/-- C7 fails on the code: from the initial form, one card is added and its remove button is
clicked twice before the first removal timer fires; both timers decrement `roomTypeCount`, which
is then 1 while the form has 2 cards.  Nine more calls of `addRoomType` are all accepted, and the
form has 11 room-type entries, more than `maxRoomTypes`. -/
theorem room_types_exceed_max :
    (formRun doubleRemove initialForm).map (fun s => (s.cards.length, s.roomTypeCount))
      = some (2, 1) ∧
    (formRun (doubleRemove ++ List.replicate 9 .add) initialForm).map
      (fun s => (s.cards.length, s.roomTypeCount, s.notes)) = some (11, 10, []) ∧
    ¬ (11 ≤ maxRoomTypes) := by
  decide

/-- C8 fails on the code: after the double click of `doubleRemove` the counter `roomTypeCount`
is one less than the number of entries; eight calls of `addRoomType` later the form has 10
room-type entries and the counter is 9, and there `addRoomType` appends an eleventh entry and
shows no warning, although its guard and its message allow at most `maxRoomTypes` entries. -/
theorem addRoomType_appends_at_ten :
    (formRun (doubleRemove ++ List.replicate 8 .add) initialForm).map
      (fun s => (s.cards.length, s.roomTypeCount,
        (addRoomType s).cards.length, (addRoomType s).notes)) = some (10, 9, 11, []) := by
  decide

/-! ## Validation -/

/-- C9 fails on the code: in `descriptionForm` the required `textarea` is counted by the
progress indicator and its trimmed value is empty, yet `validateForm` returns `true` and shows
no notification, because its first loop visits `input[required]` only. -/
theorem validateForm_skips_required_textarea :
    (⟨.textarea, "", true, [], some "Description *", false⟩ : Field) ∈
      progressFields descriptionForm ∧
    filledCount descriptionForm = 1 ∧
    (progressFields descriptionForm).length = 2 ∧
    (validateForm descriptionForm).ok = true ∧
    (validateForm descriptionForm).notes = [] := by
  decide

theorem takeWhile_length_eq_iff {α : Type} (p : α → Bool) (l : List α) :
    (l.takeWhile p).length = l.length ↔ ∀ x ∈ l, p x = true := by
  induction l with
  | nil => simp
  | cons a l ih =>
    by_cases h : p a = true
    · simp [List.takeWhile_cons, h, ih]
    · simp [List.takeWhile_cons, h]

theorem phonePattern_iff (v : List Char) :
    phonePattern v = true ↔ 10 ≤ v.length ∧ ∀ c ∈ v, phoneChar c = true := by
  simp only [phonePattern, Bool.and_eq_true, decide_eq_true_eq]
  constructor
  · rintro ⟨h1, h2⟩
    exact ⟨h2 ▸ h1, (takeWhile_length_eq_iff _ _).mp h2⟩
  · rintro ⟨h1, h2⟩
    have e := (takeWhile_length_eq_iff phoneChar v).mpr h2
    exact ⟨e ▸ h1, e⟩

theorem phoneChar_iff (c : Char) :
    phoneChar c = true ↔
      (('0' ≤ c ∧ c ≤ '9') ∨ isJsSpace c = true ∨ c = '-' ∨ c = '+' ∨ c = '(' ∨ c = ')') := by
  simp [phoneChar, or_assoc]

/-- The selector `input[type="tel"]` disregards the letter case of the attribute: an input of
type `Tel` is checked too. -/
theorem phone_check_any_case :
    phoneErrors [⟨.input, "Tel", false, "12345".toList, none, false⟩]
      = ["Please enter a valid phone number"] := by
  decide

/-- Counterexample to C10 as stated: `+923001234567` contains a plus sign, which is neither a
digit, a space, a hyphen nor a parenthesis, and the phone check of `validateForm` accepts it. -/
theorem phone_check_accepts_plus :
    phoneErrors [telField "+923001234567".toList] = [] ∧
    (validateForm [telField "+923001234567".toList]).ok = true ∧
    ¬ (∀ c ∈ "+923001234567".toList,
        ('0' ≤ c ∧ c ≤ '9') ∨ c = ' ' ∨ c = '-' ∨ c = '(' ∨ c = ')') := by
  refine ⟨by decide, by decide, ?_⟩
  intro h
  have := h '+' (by decide)
  revert this
  decide

/-- C10, as the code has it: for a non-empty value `v` of a telephone input (an `input` whose
`type` is `tel` in any letter case), the phone check
of `validateForm` pushes no error exactly when `v` has at least ten characters and every
character of `v` is a digit, a white-space character (`\s`), a hyphen, a plus sign or a
parenthesis. -/
theorem phone_check_accepts_iff (f : Field) (htag : f.tag = .input)
    (htype : typeIs f "tel" = true) (hv : f.value ≠ []) :
    phoneErrors [f] = [] ↔
      10 ≤ f.value.length ∧
      ∀ c ∈ f.value,
        ('0' ≤ c ∧ c ≤ '9') ∨ isJsSpace c = true ∨ c = '-' ∨ c = '+' ∨ c = '(' ∨ c = ')' := by
  have e : phoneErrors [f] = [] ↔ phonePattern f.value = true := by
    by_cases hp : phonePattern f.value = true
    · simp [phoneErrors, htag, htype, hv, hp]
    · simp [phoneErrors, htag, htype, hv, hp]
  rw [e, phonePattern_iff]
  simp only [phoneChar_iff]

/-- Witness of C10: `(042) 111-2233` is accepted, by the theorem. -/
theorem phone_check_accepts_iff_witness :
    phoneErrors [telField "(042) 111-2233".toList] = [] ∧
    10 ≤ (telField "(042) 111-2233".toList).value.length :=
  ⟨by decide,
    ((phone_check_accepts_iff (telField "(042) 111-2233".toList) rfl rfl (by decide)).mp
      (by decide)).1⟩

/-! ## Image upload -/

theorem handleFile_cases (s : Uploads) (file : UploadFile) :
    handleFile s file =
      if accepted file then { s with readers := s.readers ++ [file] }
      else { s with notes := s.notes ++ [rejection file] } := by
  unfold handleFile accepted rejection
  by_cases h1 : file.type ∈ allowedImageTypes
  · by_cases h2 : file.size > maxFileSize
    · have h3 : ¬ file.size ≤ maxFileSize := by omega
      simp [h1, h2, h3]
    · have h3 : file.size ≤ maxFileSize := by omega
      simp [h1, h2, h3]
  · simp [h1]

theorem handleFiles_fields (files : List UploadFile) (s : Uploads) :
    (handleFiles files s).readers = s.readers ++ files.filter accepted ∧
    (handleFiles files s).notes =
      s.notes ++ (files.filter (fun f => !accepted f)).map rejection ∧
    (handleFiles files s).previews = s.previews := by
  induction files generalizing s with
  | nil => simp [handleFiles]
  | cons f files ih =>
    have e : handleFiles (f :: files) s = handleFiles files (handleFile s f) := rfl
    rw [e]
    obtain ⟨h1, h2, h3⟩ := ih (handleFile s f)
    rw [h1, h2, h3, handleFile_cases]
    by_cases ha : accepted f = true
    · simp [ha]
    · simp [ha]

theorem loadAll_foldl (fs : List UploadFile) (s : Uploads) :
    (fs.foldl (fun acc file => readerLoaded file acc) s).previews =
      s.previews ++ fs.map (fun f => f.dataUrl) ∧
    (fs.foldl (fun acc file => readerLoaded file acc) s).readers = s.readers ∧
    (fs.foldl (fun acc file => readerLoaded file acc) s).notes = s.notes := by
  induction fs generalizing s with
  | nil => simp
  | cons f fs ih =>
    obtain ⟨h1, h2, h3⟩ := ih (readerLoaded f s)
    simp only [List.foldl_cons, h1, h2, h3]
    simp [readerLoaded]

/-- C11: for every batch, `handleFiles` starts a reader exactly for the files whose type is
one of `image/jpeg`, `image/png`, `image/webp` and whose size is at most `5*1024*1024`, in the
order of the batch, and shows exactly one error notification for each other file (the type
error when the type is not allowed, otherwise the size error), whatever came before it in the
batch; it adds no thumbnail itself, and once the started readers have loaded, the new
thumbnails are exactly those of the accepted files. -/
theorem handleFiles_per_file (files : List UploadFile) (s : Uploads) :
    (∀ f : UploadFile, accepted f = true ↔
      (f.type = "image/jpeg" ∨ f.type = "image/png" ∨ f.type = "image/webp") ∧
        f.size ≤ 5 * 1024 * 1024) ∧
    (handleFiles files s).readers = s.readers ++ files.filter accepted ∧
    (handleFiles files s).notes =
      s.notes ++ (files.filter (fun f => !accepted f)).map rejection ∧
    (handleFiles files s).previews = s.previews ∧
    (∀ f : UploadFile, rejection f =
      if f.type = "image/jpeg" ∨ f.type = "image/png" ∨ f.type = "image/webp" then
        ⟨"File size must be less than 5MB.", "error"⟩
      else ⟨"Please upload only JPEG, PNG, or WebP images.", "error"⟩) ∧
    (loadAll (handleFiles files s)).previews =
      s.previews ++ (s.readers ++ files.filter accepted).map (fun f => f.dataUrl) := by
  obtain ⟨h1, h2, h3⟩ := handleFiles_fields files s
  refine ⟨?_, h1, h2, h3, ?_, ?_⟩
  · intro f
    simp [accepted, allowedImageTypes, maxFileSize]
  · intro f
    simp [rejection, allowedImageTypes]
  · unfold loadAll
    rw [(loadAll_foldl _ _).1, h1]
    simp [h3]

/-! ## Search -/

set_option maxRecDepth 100000 in
/-- C12 fails on the code: on `smithDoe` the query `zzz` matches nothing and the placeholder is
created for it; the next query `qqq` matches nothing either, but the loop over the rows hides
the placeholder row itself (its text does not contain `qqq`) and the handler leaves it in
place, so after the second run the placeholder is hidden and still shows `zzz`.  With the next
query `zz` instead, the placeholder row counts as a visible match and is removed, although no
booking row matches. -/
theorem search_placeholder_stale :
    (searchRuns asciiLower ["zzz".toList] smithDoe).emptyState
      = some ⟨"zzz".toList, false, ""⟩ ∧
    (searchRuns asciiLower ["zzz".toList, "qqq".toList] smithDoe).emptyState
      = some ⟨"zzz".toList, true, ""⟩ ∧
    (searchRuns asciiLower ["zzz".toList, "qqq".toList] smithDoe).rows.map (fun r => r.hidden)
      = [true, true] ∧
    escapeHtml (asciiLower "qqq".toList) = "qqq".toList ∧
    (searchRuns asciiLower ["zzz".toList, "zz".toList] smithDoe).emptyState = none ∧
    (searchRuns asciiLower ["zzz".toList, "zz".toList] smithDoe).rows.map (fun r => r.hidden)
      = [true, true] := by
  decide

theorem searchHandler_rows (lower : List Char → List Char) (value : List Char)
    (t : SearchTable) :
    (searchHandler lower value t).rows =
      t.rows.map (fun r => { r with hidden := !includes (lower r.text) (lower value) }) := by
  unfold searchHandler
  simp only []
  split_ifs with h
  · cases t.emptyState <;> rfl
  · rfl

theorem searchHandler_empty_query (lower : List Char → List Char) (value : List Char)
    (t : SearchTable) (h : lower value = []) :
    (searchHandler lower value t).emptyState = none := by
  unfold searchHandler
  simp [h]

/-- C13: after the search handler has run with the value `q`, the booking rows keep their text
and a booking row is visible exactly when its lower-cased text contains the lower-cased `q` as
a contiguous run; when the lower-cased `q` is empty, every booking row is visible and the table
has no placeholder row. -/
theorem searchHandler_shows_matches (lower : List Char → List Char) (q : List Char)
    (t : SearchTable) :
    (searchHandler lower q t).rows.map (fun r => r.text) = t.rows.map (fun r => r.text) ∧
    (∀ r ∈ (searchHandler lower q t).rows, (r.hidden = false ↔ lower q <:+: lower r.text)) ∧
    (lower q = [] →
      (∀ r ∈ (searchHandler lower q t).rows, r.hidden = false) ∧
      (searchHandler lower q t).emptyState = none) := by
  rw [searchHandler_rows]
  refine ⟨by simp [Function.comp_def], ?_, ?_⟩
  · intro r hr
    obtain ⟨r0, _, rfl⟩ := List.mem_map.mp hr
    simp [includes]
  · intro h
    refine ⟨?_, searchHandler_empty_query lower q t h⟩
    intro r hr
    obtain ⟨r0, _, rfl⟩ := List.mem_map.mp hr
    simp [includes, h]

set_option maxRecDepth 100000 in
/-- Witness of C13: on `smithDoe` the query `smith` hides the row of Jane Doe and shows the row
of John Smith, and clearing the query shows both again and leaves no placeholder. -/
theorem searchHandler_shows_matches_witness :
    (searchHandler asciiLower "smith".toList smithDoe).rows.map (fun r => r.hidden)
      = [false, true] ∧
    (∀ r ∈ (searchHandler asciiLower [] (searchHandler asciiLower "zzz".toList smithDoe)).rows,
      r.hidden = false) ∧
    (searchHandler asciiLower [] (searchHandler asciiLower "zzz".toList smithDoe)).emptyState
      = none :=
  ⟨by decide,
    (searchHandler_shows_matches asciiLower []
      (searchHandler asciiLower "zzz".toList smithDoe)).2.2 rfl⟩

/-! ## Confirmation dialog -/

/-- C14: `showConfirmModal` with callback `f` puts its dialog `m` in the document; in whatever
state `m` is then clicked, Confirm runs `f` once and starts the close of `m`, Cancel and a click
on the overlay start the close of `m` and run nothing; when the close timer fires, `m` is no
longer in the document; Escape runs nothing and removes the dialog at once. -/
theorem confirmModal_handlers (s : Dialogs) (title message : String) (f : Nat) (type : String) :
    (showConfirmModal title message f type s).modals
      = s.modals.drop 1 ++ [newModal title message f type s] ∧
    (newModal title message f type s).onConfirm = f ∧
    ∀ s2 : Dialogs,
      ((clickConfirm (newModal title message f type s) s2).invoked = s2.invoked ++ [f] ∧
        (clickConfirm (newModal title message f type s) s2).fades
          = s2.fades ++ [(newModal title message f type s).id]) ∧
      ((clickCancel (newModal title message f type s) s2).invoked = s2.invoked ∧
        (clickCancel (newModal title message f type s) s2).fades
          = s2.fades ++ [(newModal title message f type s).id]) ∧
      ((clickOverlay (newModal title message f type s) s2).invoked = s2.invoked ∧
        (clickOverlay (newModal title message f type s) s2).fades
          = s2.fades ++ [(newModal title message f type s).id]) ∧
      newModal title message f type s ∉
        (fadeFired (newModal title message f type s).id s2).modals ∧
      (pressEscape s2).invoked = s2.invoked ∧
      (∀ rest, s2.modals = newModal title message f type s :: rest →
        (pressEscape s2).modals = rest) := by
  refine ⟨rfl, rfl, fun s2 => ⟨⟨rfl, rfl⟩, ⟨rfl, rfl⟩, ⟨rfl, rfl⟩, ?_, rfl, ?_⟩⟩
  · simp [fadeFired]
  · intro rest h
    simp [pressEscape, h]

theorem dialogStep_length (e : DialogEvent) (s s' : Dialogs) (h : dialogStep e s = some s')
    (hs : s.modals.length ≤ 1) : s'.modals.length ≤ 1 := by
  cases e with
  | openModal title message f type =>
    simp only [dialogStep, Option.some.injEq] at h
    subst h
    simp only [showConfirmModal, List.length_append, List.length_drop, List.length_singleton]
    omega
  | confirm m =>
    simp only [dialogStep] at h
    split_ifs at h
    simp only [Option.some.injEq] at h
    subst h
    exact hs
  | cancel m =>
    simp only [dialogStep] at h
    split_ifs at h
    simp only [Option.some.injEq] at h
    subst h
    exact hs
  | overlay m =>
    simp only [dialogStep] at h
    split_ifs at h
    simp only [Option.some.injEq] at h
    subst h
    exact hs
  | escape =>
    simp only [dialogStep, Option.some.injEq] at h
    subst h
    simp only [pressEscape, List.length_drop]
    omega
  | fire k =>
    have e : dialogStep (.fire k) s =
        (s.fades.get? k).map
          (fun id => fadeFired id { s with fades := s.fades.eraseIdx k }) := by
      show (match s.fades.get? k with
        | none => none
        | some id => some (fadeFired id { s with fades := s.fades.eraseIdx k })) = _
      cases s.fades.get? k <;> rfl
    rw [e] at h
    cases hk : s.fades.get? k with
    | none => rw [hk] at h; exact absurd h (by simp)
    | some id =>
      rw [hk] at h
      simp only [Option.map_some', Option.some.injEq] at h
      subst h
      exact le_trans (List.length_filter_le _ _) hs

theorem dialogRun_length (es : List DialogEvent) (s s' : Dialogs)
    (h : dialogRun es s = some s') (hs : s.modals.length ≤ 1) : s'.modals.length ≤ 1 := by
  induction es generalizing s with
  | nil =>
    simp only [dialogRun, Option.some.injEq] at h
    subst h
    exact hs
  | cons e es ih =>
    simp only [dialogRun] at h
    cases hstep : dialogStep e s with
    | none => simp [hstep] at h
    | some s1 =>
      rw [hstep] at h
      exact ih s1 h (dialogStep_length e s s1 hstep hs)

/-- C15: in every state reached from the page without dialog by calls of `showConfirmModal`,
clicks, Escape presses and fade timers, at most one dialog is in the document; and a call
`showConfirmModal(title2, message2, ...)` made there while a dialog is open leaves exactly one
dialog, which shows `title2` and `message2`. -/
theorem at_most_one_dialog (es : List DialogEvent) (s : Dialogs)
    (h : dialogRun es noDialog = some s) :
    s.modals.length ≤ 1 ∧
    ∀ (title2 message2 : String) (f : Nat) (type : String), s.modals ≠ [] →
      ∃ m, (showConfirmModal title2 message2 f type s).modals = [m] ∧
        m.title = title2 ∧ m.message = message2 := by
  have hlen := dialogRun_length es noDialog s h (by simp [noDialog])
  refine ⟨hlen, ?_⟩
  intro title2 message2 f type _
  refine ⟨newModal title2 message2 f type s, ?_, rfl, rfl⟩
  have hd : s.modals.drop 1 = [] := by
    apply List.drop_eq_nil_of_le
    exact hlen
  simp [showConfirmModal, hd]

/-- Witness of C15: a dialog is opened, its Cancel button is clicked, and a second dialog is
opened before the first has faded out. -/
theorem at_most_one_dialog_witness :
    (⟨[⟨0, "Approve Booking", "Sure?", 0, false⟩], 1, [0], []⟩ : Dialogs).modals.length ≤ 1 ∧
    ∃ m,
      (showConfirmModal "Reject Booking" "Sure?" 1 "danger"
        ⟨[⟨0, "Approve Booking", "Sure?", 0, false⟩], 1, [0], []⟩).modals = [m] ∧
      m.title = "Reject Booking" ∧ m.message = "Sure?" :=
  ⟨(at_most_one_dialog
      [.openModal "Approve Booking" "Sure?" 0 "primary",
        .cancel ⟨0, "Approve Booking", "Sure?", 0, false⟩]
      ⟨[⟨0, "Approve Booking", "Sure?", 0, false⟩], 1, [0], []⟩ (by decide)).1,
    (at_most_one_dialog
      [.openModal "Approve Booking" "Sure?" 0 "primary",
        .cancel ⟨0, "Approve Booking", "Sure?", 0, false⟩]
      ⟨[⟨0, "Approve Booking", "Sure?", 0, false⟩], 1, [0], []⟩ (by decide)).2
      "Reject Booking" "Sure?" 1 "danger" (by decide)⟩

/-- Witness of C14: a dialog opened on the page without dialog, then the Escape key. -/
theorem confirmModal_handlers_witness :
    (pressEscape (showConfirmModal "Report Review" "Sure?" 7 "primary" noDialog)).modals = [] :=
  (confirmModal_handlers noDialog "Report Review" "Sure?" 7 "primary").2.2
    (showConfirmModal "Report Review" "Sure?" 7 "primary" noDialog) |>.2.2.2.2.2 [] rfl

/-! ## Notification toast -/

/-- C16 fails on the code: for the severity `danger`, which is none of the four, the toast gets
the info icon but not the info style class: its class is
`notification-toast notification-danger`, for which the style sheet of `showNotification` has
no rule. -/
theorem unknown_severity_keeps_its_class :
    (showNotification "Saved" "danger").iconClass = (showNotification "Saved" "info").iconClass ∧
    (showNotification "Saved" "danger").className = "notification-toast notification-danger" ∧
    (showNotification "Saved" "info").className = "notification-toast notification-info" ∧
    showNotification "Saved" "danger" ≠ showNotification "Saved" "info" := by
  decide

/-! ## Relative time -/

theorem relativeTime_cases (diff : Nat) :
    (diff < 60000 ∧ relativeTime diff = .justNow) ∨
    (60000 ≤ diff ∧ diff < 3600000 ∧
      relativeTime diff = .ago (diff / 60000) .minute (decide (diff / 60000 > 1))) ∨
    (3600000 ≤ diff ∧ diff < 86400000 ∧
      relativeTime diff = .ago (diff / 3600000) .hour (decide (diff / 3600000 > 1))) ∨
    (86400000 ≤ diff ∧ diff < 8 * 86400000 ∧
      relativeTime diff = .ago (diff / 86400000) .day (decide (diff / 86400000 > 1))) ∨
    (8 * 86400000 ≤ diff ∧ relativeTime diff = .absolute) := by
  have e1 : diff / 1000 / 60 = diff / 60000 := by omega
  have e2 : diff / 1000 / 60 / 60 = diff / 3600000 := by omega
  have e3 : diff / 1000 / 60 / 60 / 24 = diff / 86400000 := by omega
  unfold relativeTime
  simp only []
  rw [e3, e2, e1]
  split_ifs with h1 h2 h3 h4
  · right; right; right; right
    exact ⟨by omega, rfl⟩
  · right; right; right; left
    exact ⟨by omega, by omega, rfl⟩
  · right; right; left
    exact ⟨by omega, by omega, rfl⟩
  · right; left
    exact ⟨by omega, by omega, rfl⟩
  · left
    exact ⟨by omega, rfl⟩

theorem lastSix_append (a b : String) (h : 6 ≤ b.data.length) :
    lastSix (a ++ b) = lastSix b := by
  unfold lastSix
  rw [String.data_append, List.reverse_append]
  exact List.take_append_of_le_length (by simpa using h)

theorem unitTag_append (a b : String) (h : 6 ≤ b.data.length) :
    unitTag (a ++ b) = unitTag b := by
  unfold unitTag
  rw [lastSix_append a b h]

theorem text_ago (fd : String) (n : Nat) (p : Bool) :
    RelativeTime.text fd (.ago n .minute p)
      = toString n ++ (if p then " minutes ago" else " minute ago") ∧
    RelativeTime.text fd (.ago n .hour p)
      = toString n ++ (if p then " hours ago" else " hour ago") ∧
    RelativeTime.text fd (.ago n .day p)
      = toString n ++ (if p then " days ago" else " day ago") := by
  cases p <;>
    simp only [RelativeTime.text, TimeUnit.word, String.append_assoc, if_true, if_false,
      Bool.false_eq_true] <;>
    exact ⟨rfl, rfl, rfl⟩

theorem formatRelativeTime_cases (diff : Nat) (fd : String) :
    (diff < 60000 ∧ formatRelativeTime diff fd = "Just now") ∨
    ((60000 ≤ diff ∧ diff < 3600000) ∧ formatRelativeTime diff fd =
      toString (diff / 60000) ++ (if diff / 60000 > 1 then " minutes ago" else " minute ago")) ∨
    ((3600000 ≤ diff ∧ diff < 86400000) ∧ formatRelativeTime diff fd =
      toString (diff / 3600000) ++ (if diff / 3600000 > 1 then " hours ago" else " hour ago")) ∨
    ((86400000 ≤ diff ∧ diff < 8 * 86400000) ∧ formatRelativeTime diff fd =
      toString (diff / 86400000) ++ (if diff / 86400000 > 1 then " days ago" else " day ago")) ∨
    (8 * 86400000 ≤ diff ∧ formatRelativeTime diff fd = fd) := by
  unfold formatRelativeTime
  rcases relativeTime_cases diff with ⟨h, e⟩ | ⟨h, h', e⟩ | ⟨h, h', e⟩ | ⟨h, h', e⟩ | ⟨h, e⟩
  · left; exact ⟨h, by rw [e]; rfl⟩
  · right; left
    refine ⟨⟨h, h'⟩, ?_⟩
    rw [e, (text_ago fd _ _).1]
    simp only [decide_eq_true_eq]
  · right; right; left
    refine ⟨⟨h, h'⟩, ?_⟩
    rw [e, (text_ago fd _ _).2.1]
    simp only [decide_eq_true_eq]
  · right; right; right; left
    refine ⟨⟨h, h'⟩, ?_⟩
    rw [e, (text_ago fd _ _).2.2]
    simp only [decide_eq_true_eq]
  · right; right; right; right
    exact ⟨h, by rw [e]; rfl⟩

theorem unitTag_of_form (s : String) :
    (s = "Just now" → unitTag s = 0) ∧
    ((∃ n : Nat, s = toString n ++ " minute ago" ∨ s = toString n ++ " minutes ago") →
      unitTag s = 1) ∧
    ((∃ n : Nat, s = toString n ++ " hour ago" ∨ s = toString n ++ " hours ago") →
      unitTag s = 2) ∧
    ((∃ n : Nat, s = toString n ++ " day ago" ∨ s = toString n ++ " days ago") →
      unitTag s = 3) := by
  refine ⟨?_, ?_, ?_, ?_⟩
  · rintro rfl; decide
  · rintro ⟨n, h | h⟩ <;> rw [h, unitTag_append _ _ (by decide)] <;> decide
  · rintro ⟨n, h | h⟩ <;> rw [h, unitTag_append _ _ (by decide)] <;> decide
  · rintro ⟨n, h | h⟩ <;> rw [h, unitTag_append _ _ (by decide)] <;> decide

theorem not_relative_form (fd : String) (hfd : ∀ pre : String, fd ≠ pre ++ " ago") :
    (¬ ∃ n : Nat, fd = toString n ++ " minute ago" ∨ fd = toString n ++ " minutes ago") ∧
    (¬ ∃ n : Nat, fd = toString n ++ " hour ago" ∨ fd = toString n ++ " hours ago") ∧
    (¬ ∃ n : Nat, fd = toString n ++ " day ago" ∨ fd = toString n ++ " days ago") := by
  refine ⟨?_, ?_, ?_⟩
  · rintro ⟨n, h | h⟩
    · exact hfd (toString n ++ " minute") (by rw [h, String.append_assoc]; rfl)
    · exact hfd (toString n ++ " minutes") (by rw [h, String.append_assoc]; rfl)
  · rintro ⟨n, h | h⟩
    · exact hfd (toString n ++ " hour") (by rw [h, String.append_assoc]; rfl)
    · exact hfd (toString n ++ " hours") (by rw [h, String.append_assoc]; rfl)
  · rintro ⟨n, h | h⟩
    · exact hfd (toString n ++ " day") (by rw [h, String.append_assoc]; rfl)
    · exact hfd (toString n ++ " days") (by rw [h, String.append_assoc]; rfl)

theorem formatRelativeTime_tagged (diff : Nat) (fd : String) (hfd1 : fd ≠ "Just now")
    (hfd2 : ∀ pre : String, fd ≠ pre ++ " ago") :
    (diff < 60000 ∧ formatRelativeTime diff fd = "Just now" ∧
      unitTag (formatRelativeTime diff fd) = 0 ∧ formatRelativeTime diff fd ≠ fd) ∨
    ((60000 ≤ diff ∧ diff < 3600000) ∧ formatRelativeTime diff fd =
      toString (diff / 60000) ++ (if diff / 60000 > 1 then " minutes ago" else " minute ago") ∧
      unitTag (formatRelativeTime diff fd) = 1 ∧ formatRelativeTime diff fd ≠ fd) ∨
    ((3600000 ≤ diff ∧ diff < 86400000) ∧ formatRelativeTime diff fd =
      toString (diff / 3600000) ++ (if diff / 3600000 > 1 then " hours ago" else " hour ago") ∧
      unitTag (formatRelativeTime diff fd) = 2 ∧ formatRelativeTime diff fd ≠ fd) ∨
    ((86400000 ≤ diff ∧ diff < 8 * 86400000) ∧ formatRelativeTime diff fd =
      toString (diff / 86400000) ++ (if diff / 86400000 > 1 then " days ago" else " day ago") ∧
      unitTag (formatRelativeTime diff fd) = 3 ∧ formatRelativeTime diff fd ≠ fd) ∨
    (8 * 86400000 ≤ diff ∧ formatRelativeTime diff fd = fd) := by
  obtain ⟨n1, n2, n3⟩ := not_relative_form fd hfd2
  rcases formatRelativeTime_cases diff fd with ⟨h, e⟩ | ⟨h, e⟩ | ⟨h, e⟩ | ⟨h, e⟩ | ⟨h, e⟩
  · left
    exact ⟨h, e, (unitTag_of_form _).1 e, fun h' => hfd1 (h'.symm.trans e)⟩
  · right; left
    have w : ∃ n : Nat, formatRelativeTime diff fd = toString n ++ " minute ago" ∨
        formatRelativeTime diff fd = toString n ++ " minutes ago" := by
      refine ⟨diff / 60000, ?_⟩
      rw [e]
      split_ifs
      · exact Or.inr rfl
      · exact Or.inl rfl
    exact ⟨h, e, (unitTag_of_form _).2.1 w, fun h' => n1 (h' ▸ w)⟩
  · right; right; left
    have w : ∃ n : Nat, formatRelativeTime diff fd = toString n ++ " hour ago" ∨
        formatRelativeTime diff fd = toString n ++ " hours ago" := by
      refine ⟨diff / 3600000, ?_⟩
      rw [e]
      split_ifs
      · exact Or.inr rfl
      · exact Or.inl rfl
    exact ⟨h, e, (unitTag_of_form _).2.2.1 w, fun h' => n2 (h' ▸ w)⟩
  · right; right; right; left
    have w : ∃ n : Nat, formatRelativeTime diff fd = toString n ++ " day ago" ∨
        formatRelativeTime diff fd = toString n ++ " days ago" := by
      refine ⟨diff / 86400000, ?_⟩
      rw [e]
      split_ifs
      · exact Or.inr rfl
      · exact Or.inl rfl
    exact ⟨h, e, (unitTag_of_form _).2.2.2 w, fun h' => n3 (h' ▸ w)⟩
  · right; right; right; right
    exact ⟨h, e⟩

/-- C19: with `diff = now - d` in milliseconds and `fd` the absolute date `formatDate(d)`
(which is neither `Just now` nor a string ending in ` ago`), the string returned is `Just now`
exactly when `diff < 60000`; it is `N minute ago` or `N minutes ago` exactly when
`60000 ≤ diff < 3600000`, and then `N = diff / 60000`, `1 ≤ N ≤ 59` and the plural is used
exactly when `N > 1`; likewise for `hour` when `3600000 ≤ diff < 86400000` with
`N = diff / 3600000` and `1 ≤ N ≤ 23`, and for `day` when `86400000 ≤ diff < 8 * 86400000`
with `N = diff / 86400000` and `1 ≤ N ≤ 7`; and it is the absolute date exactly when
`8 * 86400000 ≤ diff`. -/
theorem formatRelativeTime_ranges (diff : Nat) (fd : String) (hfd1 : fd ≠ "Just now")
    (hfd2 : ∀ pre : String, fd ≠ pre ++ " ago") :
    (formatRelativeTime diff fd = "Just now" ↔ diff < 60000) ∧
    ((∃ n : Nat, formatRelativeTime diff fd = toString n ++ " minute ago" ∨
        formatRelativeTime diff fd = toString n ++ " minutes ago") ↔
      60000 ≤ diff ∧ diff < 3600000) ∧
    ((∃ n : Nat, formatRelativeTime diff fd = toString n ++ " hour ago" ∨
        formatRelativeTime diff fd = toString n ++ " hours ago") ↔
      3600000 ≤ diff ∧ diff < 86400000) ∧
    ((∃ n : Nat, formatRelativeTime diff fd = toString n ++ " day ago" ∨
        formatRelativeTime diff fd = toString n ++ " days ago") ↔
      86400000 ≤ diff ∧ diff < 8 * 86400000) ∧
    (formatRelativeTime diff fd = fd ↔ 8 * 86400000 ≤ diff) ∧
    (60000 ≤ diff ∧ diff < 3600000 →
      1 ≤ diff / 60000 ∧ diff / 60000 ≤ 59 ∧
      formatRelativeTime diff fd =
        toString (diff / 60000) ++ (if diff / 60000 > 1 then " minutes ago" else " minute ago")) ∧
    (3600000 ≤ diff ∧ diff < 86400000 →
      1 ≤ diff / 3600000 ∧ diff / 3600000 ≤ 23 ∧
      formatRelativeTime diff fd =
        toString (diff / 3600000) ++ (if diff / 3600000 > 1 then " hours ago" else " hour ago")) ∧
    (86400000 ≤ diff ∧ diff < 8 * 86400000 →
      1 ≤ diff / 86400000 ∧ diff / 86400000 ≤ 7 ∧
      formatRelativeTime diff fd =
        toString (diff / 86400000) ++ (if diff / 86400000 > 1 then " days ago" else " day ago")) := by
  have hk := formatRelativeTime_tagged diff fd hfd1 hfd2
  have hform := unitTag_of_form (formatRelativeTime diff fd)
  obtain ⟨n1, n2, n3⟩ := not_relative_form fd hfd2
  refine ⟨?_, ?_, ?_, ?_, ?_, ?_, ?_, ?_⟩
  · rcases hk with ⟨hr, hs, ht, hne⟩ | ⟨hr, hs, ht, hne⟩ | ⟨hr, hs, ht, hne⟩ | ⟨hr, hs, ht, hne⟩ | ⟨hr, hs⟩
    · exact ⟨fun _ => hr, fun _ => hs⟩
    · constructor
      · intro h
        have := hform.1 h
        omega
      · intro h
        exfalso
        omega
    · constructor
      · intro h
        have := hform.1 h
        omega
      · intro h
        exfalso
        omega
    · constructor
      · intro h
        have := hform.1 h
        omega
      · intro h
        exfalso
        omega
    · constructor
      · intro h
        exact absurd (hs.symm.trans h) hfd1
      · intro h
        exfalso
        omega
  · rcases hk with ⟨hr, hs, ht, hne⟩ | ⟨hr, hs, ht, hne⟩ | ⟨hr, hs, ht, hne⟩ | ⟨hr, hs, ht, hne⟩ | ⟨hr, hs⟩
    · constructor
      · intro h
        have := hform.2.1 h
        omega
      · intro h
        exfalso
        omega
    · constructor
      · intro _
        exact hr
      · intro _
        refine ⟨diff / 60000, ?_⟩
        rw [hs]
        split_ifs
        · exact Or.inr rfl
        · exact Or.inl rfl
    · constructor
      · intro h
        have := hform.2.1 h
        omega
      · intro h
        exfalso
        omega
    · constructor
      · intro h
        have := hform.2.1 h
        omega
      · intro h
        exfalso
        omega
    · constructor
      · intro h
        rw [hs] at h
        exact absurd h n1
      · intro h
        exfalso
        omega
  · rcases hk with ⟨hr, hs, ht, hne⟩ | ⟨hr, hs, ht, hne⟩ | ⟨hr, hs, ht, hne⟩ | ⟨hr, hs, ht, hne⟩ | ⟨hr, hs⟩
    · constructor
      · intro h
        have := hform.2.2.1 h
        omega
      · intro h
        exfalso
        omega
    · constructor
      · intro h
        have := hform.2.2.1 h
        omega
      · intro h
        exfalso
        omega
    · constructor
      · intro _
        exact hr
      · intro _
        refine ⟨diff / 3600000, ?_⟩
        rw [hs]
        split_ifs
        · exact Or.inr rfl
        · exact Or.inl rfl
    · constructor
      · intro h
        have := hform.2.2.1 h
        omega
      · intro h
        exfalso
        omega
    · constructor
      · intro h
        rw [hs] at h
        exact absurd h n2
      · intro h
        exfalso
        omega
  · rcases hk with ⟨hr, hs, ht, hne⟩ | ⟨hr, hs, ht, hne⟩ | ⟨hr, hs, ht, hne⟩ | ⟨hr, hs, ht, hne⟩ | ⟨hr, hs⟩
    · constructor
      · intro h
        have := hform.2.2.2 h
        omega
      · intro h
        exfalso
        omega
    · constructor
      · intro h
        have := hform.2.2.2 h
        omega
      · intro h
        exfalso
        omega
    · constructor
      · intro h
        have := hform.2.2.2 h
        omega
      · intro h
        exfalso
        omega
    · constructor
      · intro _
        exact hr
      · intro _
        refine ⟨diff / 86400000, ?_⟩
        rw [hs]
        split_ifs
        · exact Or.inr rfl
        · exact Or.inl rfl
    · constructor
      · intro h
        rw [hs] at h
        exact absurd h n3
      · intro h
        exfalso
        omega
  · rcases hk with ⟨hr, hs, ht, hne⟩ | ⟨hr, hs, ht, hne⟩ | ⟨hr, hs, ht, hne⟩ | ⟨hr, hs, ht, hne⟩ | ⟨hr, hs⟩
    · constructor
      · intro h
        exact absurd h hne
      · intro h
        exfalso
        omega
    · constructor
      · intro h
        exact absurd h hne
      · intro h
        exfalso
        omega
    · constructor
      · intro h
        exact absurd h hne
      · intro h
        exfalso
        omega
    · constructor
      · intro h
        exact absurd h hne
      · intro h
        exfalso
        omega
    · exact ⟨fun _ => hr, fun _ => hs⟩
  · intro h
    rcases hk with ⟨hr, hs, ht, hne⟩ | ⟨hr, hs, ht, hne⟩ | ⟨hr, hs, ht, hne⟩ | ⟨hr, hs, ht, hne⟩ | ⟨hr, hs⟩
    · exfalso
      omega
    · exact ⟨by omega, by omega, hs⟩
    · exfalso
      omega
    · exfalso
      omega
    · exfalso
      omega
  · intro h
    rcases hk with ⟨hr, hs, ht, hne⟩ | ⟨hr, hs, ht, hne⟩ | ⟨hr, hs, ht, hne⟩ | ⟨hr, hs, ht, hne⟩ | ⟨hr, hs⟩
    · exfalso
      omega
    · exfalso
      omega
    · exact ⟨by omega, by omega, hs⟩
    · exfalso
      omega
    · exfalso
      omega
  · intro h
    rcases hk with ⟨hr, hs, ht, hne⟩ | ⟨hr, hs, ht, hne⟩ | ⟨hr, hs, ht, hne⟩ | ⟨hr, hs, ht, hne⟩ | ⟨hr, hs⟩
    · exfalso
      omega
    · exfalso
      omega
    · exfalso
      omega
    · exact ⟨by omega, by omega, hs⟩
    · exfalso
      omega

/-- Witness of C19: two minutes before now. -/
theorem formatRelativeTime_ranges_witness :
    formatRelativeTime 120000 "Jan 5, 2024" = "2 minutes ago" := by
  have h := (formatRelativeTime_ranges 120000 "Jan 5, 2024" (by decide)
    (fun pre h => by
      have e := congrArg (fun s : String => s.data.reverse.head?) h
      simp [String.data_append] at e)).2.2.2.2.2.1 (by decide)
  exact h.2.2.trans (by decide)

/-! ## Reviews: at most one owner reply -/

theorem replyTimerFired_counts (t : ReplyTimer) (s : Review) :
    ownerReplyCount (replyTimerFired t s).card = ownerReplyCount s.card + 1 ∧
    replyBtnCount (replyTimerFired t s).card = replyBtnCount s.card - 1 ∧
    (replyTimerFired t s).form.shown = false ∧
    (replyTimerFired t s).form.submitDisabled = false ∧
    (replyTimerFired t s).timers = s.timers := by
  refine ⟨?_, ?_, rfl, rfl, rfl⟩
  · simp only [replyTimerFired]
    rw [removeReplyBtn_ownerReplyCount, insertBeforeFooter_ownerReplyCount _ rfl]
  · simp only [replyTimerFired]
    rw [removeReplyBtn_count, insertBeforeFooter_replyBtnCount _ rfl]

theorem fireReplyTimer_some (k : Nat) (s s' : Review) (h : fireReplyTimer k s = some s') :
    ∃ t, k < s.timers.length ∧
      s' = replyTimerFired t { s with timers := s.timers.eraseIdx k } := by
  unfold fireReplyTimer at h
  cases hk : s.timers.get? k with
  | none => rw [hk] at h; exact absurd h (by simp)
  | some t =>
    rw [hk] at h
    simp only [Option.some.injEq] at h
    have hlt : k < s.timers.length := by
      by_contra hge
      rw [List.get?_eq_none.mpr (by omega)] at hk
      exact absurd hk (by simp)
    exact ⟨t, hlt, h.symm⟩

theorem reviewStep_replyOnce (e : ReviewEvent) (s s' : Review) (h : reviewStep e s = some s')
    (inv : ReplyOnce s) : ReplyOnce s' := by
  obtain ⟨i1, i2, i3, i4⟩ := inv
  cases e with
  | clickReply =>
    simp only [reviewStep] at h
    split_ifs at h with hb
    simp only [Option.some.injEq] at h
    subst h
    refine ⟨i1, i2, ?_, i4⟩
    intro h1
    have := (i3 h1).2
    omega
  | typeText t =>
    simp only [reviewStep] at h
    split_ifs at h with hb
    simp only [Option.some.injEq] at h
    subst h
    exact ⟨i1, i2, i3, i4⟩
  | clickSubmit =>
    simp only [reviewStep] at h
    split_ifs at h with hb
    simp only [Option.some.injEq] at h
    subst h
    simp only [Bool.and_eq_true, Bool.not_eq_true', ] at hb
    obtain ⟨hshown, hen⟩ := hb
    have ht : s.timers = [] := by
      by_contra hne
      rw [i2 hne] at hen
      exact absurd hen (by simp)
    have hr : ownerReplyCount s.card = 0 := by
      by_contra hne
      have := (i3 (by omega)).1
      rw [this] at hshown
      exact absurd hshown (by simp)
    unfold submitReply
    simp only []
    split_ifs with hblank
    · exact ⟨i1, i2, i3, i4⟩
    · refine ⟨?_, fun _ => rfl, ?_, i4⟩
      · simp [hr, ht]
      · intro h1
        simp only [hr] at h1
        omega
  | fire k =>
    simp only [reviewStep] at h
    obtain ⟨t, hlt, rfl⟩ := fireReplyTimer_some k s s' h
    obtain ⟨c1, c2, c3, c4, c5⟩ :=
      replyTimerFired_counts t { s with timers := s.timers.eraseIdx k }
    have hlen : (s.timers.eraseIdx k).length = s.timers.length - 1 := by
      rw [List.length_eraseIdx, if_pos hlt]
    have hl1 : s.timers.length = 1 := by omega
    have hr0 : ownerReplyCount s.card = 0 := by omega
    have he : s.timers.eraseIdx k = [] := by
      apply List.eq_nil_of_length_eq_zero
      omega
    refine ⟨?_, ?_, ?_, ?_⟩
    · rw [c1, c5]
      simp only [he, List.length_nil]
      omega
    · rw [c5]
      intro hne
      exact absurd he hne
    · intro _
      refine ⟨c3, ?_⟩
      rw [c2]
      simp only
      omega
    · rw [c2]
      simp only
      omega

theorem reviewRun_replyOnce (es : List ReviewEvent) (s s' : Review)
    (h : reviewRun es s = some s') (inv : ReplyOnce s) : ReplyOnce s' := by
  induction es generalizing s with
  | nil =>
    simp only [reviewRun, Option.some.injEq] at h
    subst h
    exact inv
  | cons e es ih =>
    simp only [reviewRun] at h
    cases hstep : reviewStep e s with
    | none => simp [hstep] at h
    | some s1 =>
      rw [hstep] at h
      exact ih s1 h (reviewStep_replyOnce e s s1 hstep inv)

/-- Counterexample to C18 as stated: two calls of `submitReply` on `thanksReview` before the
first timer fires start two timers, and when both have fired the card has two owner-reply
blocks. -/
theorem two_calls_two_replies :
    (submitReply (submitReply thanksReview)).timers.length = 2 ∧
    ((fireReplyTimer 0 (submitReply (submitReply thanksReview))).bind (fireReplyTimer 0)).map
      (fun s => ownerReplyCount s.card) = some 2 := by
  decide

/-- C18, as the code has it: from a review card with no owner reply, at most one reply button
and no pending timer, every state reached by clicks on the reply button, typing into the shown
composer, clicks on the enabled submit button of the shown composer and firings of the timers
of `submitReply` has at most one owner-reply block in the card. -/
theorem at_most_one_owner_reply (s0 : Review) (h0 : ownerReplyCount s0.card = 0)
    (hb : replyBtnCount s0.card ≤ 1) (ht : s0.timers = [])
    (es : List ReviewEvent) (s : Review) (h : reviewRun es s0 = some s) :
    ownerReplyCount s.card ≤ 1 := by
  have inv0 : ReplyOnce s0 := by
    refine ⟨by simp [h0, ht], fun hne => absurd ht hne, fun h1 => by omega, hb⟩
  have inv := reviewRun_replyOnce es s0 s h inv0
  have := inv.1
  omega

/-- Witness of C18 on `thanksReview`: the reply is submitted and posted; the run happens, and
the state it reaches has one owner reply. -/
theorem at_most_one_owner_reply_witness :
    (reviewRun [.clickSubmit, .fire 0] thanksReview).map (fun s => ownerReplyCount s.card)
      = some 1 ∧
    ∀ s, reviewRun [.clickSubmit, .fire 0] thanksReview = some s →
      ownerReplyCount s.card ≤ 1 :=
  ⟨by decide,
    fun s h => at_most_one_owner_reply thanksReview (by decide) (by decide) rfl
      [.clickSubmit, .fire 0] s h⟩

/-! ## Progress indicator -/

theorem roundHalfEven_bounds (a b : Nat) (hb : 0 < b) :
    2 * b * roundHalfEven a b ≤ 2 * a + b ∧ 2 * a ≤ 2 * b * roundHalfEven a b + b := by
  have hdm : b * (a / b) + a % b = a := Nat.div_add_mod a b
  have hr : a % b < b := Nat.mod_lt a hb
  unfold roundHalfEven
  simp only []
  generalize a / b = q at *
  generalize a % b = r at *
  subst hdm
  split_ifs with h1 h2 h3 <;> constructor <;> nlinarith

theorem shiftFrom_spec (a target : Nat) (fuel s : Nat) (h : target ≤ a * 2 ^ (s + fuel)) :
    target ≤ a * 2 ^ shiftFrom a target fuel s := by
  induction fuel generalizing s with
  | zero => simpa [shiftFrom] using h
  | succ fuel ih =>
    unfold shiftFrom
    split_ifs with h1
    · exact h1
    · apply ih
      rw [show s + 1 + fuel = s + (fuel + 1) by omega]
      exact h

theorem binaryShift_spec (a b : Nat) (ha : 0 < a) :
    b * 2 ^ 52 ≤ a * 2 ^ binaryShift a b := by
  unfold binaryShift
  apply shiftFrom_spec
  rw [Nat.zero_add]
  calc b * 2 ^ 52 ≤ 2 ^ (b * 2 ^ 52) := le_of_lt (Nat.lt_two_pow _)
    _ = 1 * 2 ^ (b * 2 ^ 52) := (Nat.one_mul _).symm
    _ ≤ a * 2 ^ (b * 2 ^ 52) := Nat.mul_le_mul_right _ ha

theorem nearest_of_roundings (f n m1 S1 m2 S2 p : ℚ)
    (hf : 0 < f) (hfn : f ≤ n) (hn : n < 4294967296) (hS1 : 0 < S1) (hS2 : 0 < S2)
    (e1a : 2 * n * m1 ≤ 2 * (f * S1) + n) (e1b : 2 * (f * S1) ≤ 2 * n * m1 + n)
    (p1 : n * 4503599627370496 ≤ f * S1)
    (e2a : 2 * S1 * m2 ≤ 2 * (m1 * 100 * S2) + S1)
    (e2b : 2 * (m1 * 100 * S2) ≤ 2 * S1 * m2 + S1)
    (p2 : S1 * 4503599627370496 ≤ m1 * 100 * S2)
    (e3a : 2 * S2 * p ≤ 2 * m2 + S2) (e3b : 2 * m2 + S2 < 2 * S2 * (p + 1)) :
    2 * n * p < 200 * f + n + 1 ∧ 200 * f < 2 * n * p + n + 1 := by
  have hn0 : 0 < n := lt_of_lt_of_le hf hfn
  have ha1 : f / n ≤ 1 := (div_le_one hn0).mpr hfn
  have ha0 : 0 < f / n := div_pos hf hn0
  -- the quotient
  have E1a : m1 / S1 ≤ f / n + 1 / S1 / 2 := by
    rw [← sub_nonneg]
    have e : f / n + 1 / S1 / 2 - m1 / S1 = (2 * (f * S1) + n - 2 * n * m1) / (2 * n * S1) := by
      field_simp; ring
    rw [e]; apply div_nonneg; linarith; positivity
  have E1b : f / n ≤ m1 / S1 + 1 / S1 / 2 := by
    rw [← sub_nonneg]
    have e : m1 / S1 + 1 / S1 / 2 - f / n = (2 * n * m1 + n - 2 * (f * S1)) / (2 * n * S1) := by
      field_simp; ring
    rw [e]; apply div_nonneg; linarith; positivity
  have P1 : 1 / S1 ≤ f / n / 4503599627370496 := by
    rw [← sub_nonneg]
    have e : f / n / 4503599627370496 - 1 / S1 =
        (f * S1 - n * 4503599627370496) / (n * 4503599627370496 * S1) := by
      field_simp
    rw [e]; apply div_nonneg; linarith; positivity
  -- the product
  have E2a : m2 / S2 ≤ 100 * (m1 / S1) + 1 / S2 / 2 := by
    rw [← sub_nonneg]
    have e : 100 * (m1 / S1) + 1 / S2 / 2 - m2 / S2 =
        (2 * (m1 * 100 * S2) + S1 - 2 * S1 * m2) / (2 * S1 * S2) := by
      field_simp; ring
    rw [e]; apply div_nonneg; linarith; positivity
  have E2b : 100 * (m1 / S1) ≤ m2 / S2 + 1 / S2 / 2 := by
    rw [← sub_nonneg]
    have e : m2 / S2 + 1 / S2 / 2 - 100 * (m1 / S1) =
        (2 * S1 * m2 + S1 - 2 * (m1 * 100 * S2)) / (2 * S1 * S2) := by
      field_simp; ring
    rw [e]; apply div_nonneg; linarith; positivity
  have P2 : 1 / S2 ≤ 100 * (m1 / S1) / 4503599627370496 := by
    rw [← sub_nonneg]
    have e : 100 * (m1 / S1) / 4503599627370496 - 1 / S2 =
        (100 * m1 * S2 - S1 * 4503599627370496) / (S1 * 4503599627370496 * S2) := by
      field_simp
    rw [e]; apply div_nonneg; linarith; positivity
  -- the rounding to an integer
  have E3a : p ≤ m2 / S2 + 1 / 2 := by
    rw [← sub_nonneg]
    have e : m2 / S2 + 1 / 2 - p = (2 * m2 + S2 - 2 * S2 * p) / (2 * S2) := by
      field_simp; ring
    rw [e]; apply div_nonneg; linarith; positivity
  have E3b : m2 / S2 + 1 / 2 < p + 1 := by
    rw [← sub_pos]
    have e : p + 1 - (m2 / S2 + 1 / 2) = (2 * S2 * (p + 1) - (2 * m2 + S2)) / (2 * S2) := by
      field_simp; ring
    rw [e]; apply div_pos; linarith; positivity
  have ht1 : 0 < 1 / S1 := by positivity
  have ht2 : 0 < 1 / S2 := by positivity
  have hfa : f / n * n = f := div_mul_cancel₀ f hn0.ne'
  generalize f / n = a at *
  generalize m1 / S1 = q at *
  generalize m2 / S2 = x at *
  generalize 1 / S1 = t1 at *
  generalize 1 / S2 = t2 at *
  have hup : p - 100 * a ≤ 1 / 2 + 1 / 8796093022208 := by linarith
  have hlo : 100 * a - p < 1 / 2 + 1 / 8796093022208 := by linarith
  have h1 := mul_le_mul_of_nonneg_left hup (by linarith : (0 : ℚ) ≤ 2 * n)
  have h2 := mul_lt_mul_of_pos_left hlo (by linarith : (0 : ℚ) < 2 * n)
  constructor
  · nlinarith
  · nlinarith

theorem progressPercent_nearest (filled total : Nat) (h0 : 0 < total) (hle : filled ≤ total)
    (hlt : total < 2 ^ 32) :
    ∃ p, progressPercent filled total = some p ∧
      2 * total * p ≤ 200 * filled + total ∧ 200 * filled ≤ 2 * total * p + total ∧
      p ≤ 100 := by
  by_cases hf : filled = 0
  · refine ⟨0, ?_, ?_, ?_, ?_⟩ <;> simp [progressPercent, hf]
    omega
  have hfpos : 0 < filled := Nat.pos_of_ne_zero hf
  have ht : total ≠ 0 := by omega
  simp only [progressPercent, ht, hf, if_false, roundDouble]
  generalize hs1 : binaryShift filled total = s1
  have B1 := binaryShift_spec filled total hfpos
  rw [hs1] at B1
  have R1 := roundHalfEven_bounds (filled * 2 ^ s1) total h0
  generalize hm1 : roundHalfEven (filled * 2 ^ s1) total = m1 at R1 ⊢
  have hm1pos : 0 < m1 := by
    by_contra hz
    have : m1 = 0 := by omega
    subst this
    have := R1.2
    have h52 : total * 1 ≤ total * 2 ^ 52 := Nat.mul_le_mul_left _ (Nat.one_le_two_pow)
    omega
  generalize hs2 : binaryShift (m1 * 100) (2 ^ s1) = s2
  have B2 := binaryShift_spec (m1 * 100) (2 ^ s1) (by omega)
  rw [hs2] at B2
  have R2 := roundHalfEven_bounds (m1 * 100 * 2 ^ s2) (2 ^ s1) (Nat.two_pow_pos _)
  generalize hm2 : roundHalfEven (m1 * 100 * 2 ^ s2) (2 ^ s1) = m2 at R2 ⊢
  have hS2 : 0 < 2 ^ (s2 + 1) := Nat.two_pow_pos _
  have D1 : 2 ^ (s2 + 1) * ((2 * m2 + 2 ^ s2) / 2 ^ (s2 + 1)) ≤ 2 * m2 + 2 ^ s2 :=
    Nat.mul_div_le _ _
  have D2 : 2 * m2 + 2 ^ s2 < 2 ^ (s2 + 1) * ((2 * m2 + 2 ^ s2) / 2 ^ (s2 + 1) + 1) :=
    Nat.lt_mul_div_succ _ hS2
  generalize (2 * m2 + 2 ^ s2) / 2 ^ (s2 + 1) = p at D1 D2 ⊢
  rw [pow_succ] at D1 D2
  have key := nearest_of_roundings (filled : ℚ) total m1 ((2 : ℚ) ^ s1) m2 ((2 : ℚ) ^ s2) p
    (by exact_mod_cast hfpos) (by exact_mod_cast hle) (by exact_mod_cast hlt)
    (by positivity) (by positivity)
    (by exact_mod_cast R1.1) (by exact_mod_cast R1.2) (by exact_mod_cast B1)
    (by exact_mod_cast R2.1) (by exact_mod_cast R2.2) (by exact_mod_cast B2)
    (by exact_mod_cast (by linarith : 2 * 2 ^ s2 * p ≤ 2 * m2 + 2 ^ s2))
    (by exact_mod_cast (by linarith : 2 * m2 + 2 ^ s2 < 2 * 2 ^ s2 * (p + 1)))
  have k1 : 2 * total * p < 200 * filled + total + 1 := by exact_mod_cast key.1
  have k2 : 200 * filled < 2 * total * p + total + 1 := by exact_mod_cast key.2
  refine ⟨p, rfl, by omega, by omega, ?_⟩
  by_contra hp
  have hp' : 101 ≤ p := by omega
  have : 2 * total * 101 ≤ 2 * total * p := Nat.mul_le_mul_left _ hp'
  omega

/-- The binary64 arithmetic at a tie: 23 filled fields of 40 give the product
`57.49999999999999`, and the indicator shows 57. -/
theorem progressPercent_tie : progressPercent 23 40 = some 57 := by
  decide

/-- Counterexample to C17 as stated: for a form without required field the computed value is
`NaN`, the text reads `NaN% complete` and the bar keeps its width. -/
theorem updateFormProgress_no_required :
    (progressFields []).length = 0 ∧
    progressPercent (filledCount []) (progressFields []).length = none ∧
    updateFormProgress [] ⟨some "0%", some "0% complete"⟩
      = ⟨some "0%", some "NaN% complete"⟩ := by
  decide

/-- C17, as the code has it: for a form with at least one required field (and fewer than
`2 ^ 32`, the bound of a node list), `updateFormProgress` shows a whole number `p` with
`p ≤ 100` that is a nearest integer to `100 * filled / total`, that is
`|p - 100 * filled / total| ≤ 1/2`; the bar width is `p%` and the text is `p% complete`. -/
theorem updateFormProgress_percent (form : List Field) (v : ProgressView)
    (h1 : 0 < (progressFields form).length) (h2 : (progressFields form).length < 2 ^ 32) :
    ∃ p : Nat, p ≤ 100 ∧
      2 * (progressFields form).length * p ≤ 200 * filledCount form + (progressFields form).length ∧
      200 * filledCount form ≤ 2 * (progressFields form).length * p + (progressFields form).length ∧
      (updateFormProgress form v).barWidth = v.barWidth.map (fun _ => toString p ++ "%") ∧
      (updateFormProgress form v).text = v.text.map (fun _ => toString p ++ "% complete") := by
  have hle : filledCount form ≤ (progressFields form).length := List.countP_le_length _
  obtain ⟨p, hp, k1, k2, k3⟩ :=
    progressPercent_nearest (filledCount form) (progressFields form).length h1 hle h2
  refine ⟨p, k3, k1, k2, ?_, ?_⟩
  · simp only [updateFormProgress, hp]
  · simp only [updateFormProgress, hp]

/-- Witness of C17 on `descriptionForm`: two required fields, one of them filled. -/
theorem updateFormProgress_percent_witness :
    ∃ p : Nat, p ≤ 100 ∧
      2 * (progressFields descriptionForm).length * p
        ≤ 200 * filledCount descriptionForm + (progressFields descriptionForm).length ∧
      200 * filledCount descriptionForm
        ≤ 2 * (progressFields descriptionForm).length * p
          + (progressFields descriptionForm).length ∧
      (updateFormProgress descriptionForm ⟨some "0%", some "0% complete"⟩).barWidth
        = some (toString p ++ "%") ∧
      (updateFormProgress descriptionForm ⟨some "0%", some "0% complete"⟩).text
        = some (toString p ++ "% complete") :=
  updateFormProgress_percent descriptionForm ⟨some "0%", some "0% complete"⟩
    (by decide) (by decide)

end HostelOwner
